import Mathlib

/-!
Shallow embedding of the crawl engine of `crawler.py` (class `WebCrawler`).

Modelling conventions:
* Machine state (`crawled_urls`, `url_data`, `queue`) is carried explicitly in a
  `CrawlerState` record; one iteration of the `while self.queue` loop is the
  function `step`.
* External capabilities are oracles bundled in `Env`:
  - `parse` stands for `urllib.parse.urlparse` (a pure function of the URL
    string; only the `netloc`, `path` and `fragment` components are used by
    the crawler);
  - `fetch` stands for the outcome of `crawl_url_with_retry` for a URL:
    either a response (status code, body size, optional `location` header,
    `Content-Type` header, the links `extract_links` would produce from the
    body, and the title `extract_title` would produce) or a raised exception
    carrying the optional `status_code` of an attached response;
  - `dbFail` tells whether the n-th database commit raises
    (`save_to_database` / `update_parent_statistics` each perform one
    query+commit per call; exceptions there are re-raised after rollback).
* Python `dict`s with string keys are association lists with insert-or-replace
  (`upsert`) semantics, preserving insertion order like CPython dicts.
* The keys of `statistics['status_code_stats']` are Python values that may be
  an `int`, `None`, or (after a JSON round trip) a `str`; `StatKey` covers the
  three cases.
* Two ghost fields instrument the loop: `dequeue_log` records every task
  popped by `popleft`, `fetch_log` records every task for which a fetch was
  actually issued (i.e. that survived the dequeue-time guards).
-/

/-- A pending crawl task: the 4-tuple `(url, depth, parent_url, redirect_count)`
pushed onto `self.queue`. -/
structure CrawlTask where
  url : String
  depth : Nat
  parent_url : Option String
  redirect_count : Nat
deriving DecidableEq, Repr

/-- Key of the `status_code_stats` dictionary: the child's `status_code`, which
is an `int` or `None`; after a JSON save/load round trip keys become strings. -/
inductive StatKey where
  | int (n : Nat)
  | null
  | str (s : String)
deriving DecidableEq, Repr

/-- The `statistics` sub-dictionary of a `url_data` entry. -/
structure Statistics where
  total_urls_crawled : Nat
  total_errors : Nat
  status_code_stats : List (StatKey × Nat)
  domain_stats : List (String × Nat)
deriving DecidableEq, Repr

/-- The all-zero statistics every fresh record starts with. -/
def zeroStats : Statistics :=
  { total_urls_crawled := 0, total_errors := 0, status_code_stats := [], domain_stats := [] }

/-- One `url_data` entry (a CrawlRecord). `status_code` is `none` for Python
`None` (terminal failures with no attached response). -/
structure UrlRecord where
  url : String
  status_code : Option Nat
  content_size : Nat
  title : String
  parent_url : Option String
  statistics : Statistics
deriving DecidableEq, Repr

/-- The components of `urlparse(url)` the crawler reads. -/
structure ParsedUrl where
  netloc : String
  path : String
  fragment : String
deriving DecidableEq, Repr

/-- Outcome of `crawl_url_with_retry(url)` as seen by the crawl loop: a
response `(content, status_code, headers)` — with the link list and title the
external HTML parser would extract from the content — or an exception
(after retries are exhausted), carrying `getattr(e.response, 'status_code', None)`. -/
inductive FetchOutcome where
  | resp (status : Nat) (content_size : Nat) (location : Option String)
      (content_type : String) (links : List String) (title : String)
  | raised (status : Option Nat)
deriving DecidableEq

/-- The crawler's configuration and external-world oracles. -/
structure Env where
  max_depth : Nat
  max_redirect_count : Nat
  domains : List String
  blacklist : List String
  parse : String → ParsedUrl
  fetch : String → FetchOutcome
  dbFail : Nat → Bool

/-- Python truthiness of an optional integer: `None` and `0` are falsy. -/
def pyTruthy : Option Nat → Bool
  | none => false
  | some n => n != 0

/-- `a` is a prefix of `b` (on character lists). -/
def listIsPrefix : List Char → List Char → Bool
  | [], _ => true
  | _ :: _, [] => false
  | a :: as, b :: bs => a == b && listIsPrefix as bs

/-- `needle` occurs inside `hay` (on character lists). -/
def listContainsSub (needle : List Char) : List Char → Bool
  | [] => listIsPrefix needle []
  | c :: cs => listIsPrefix needle (c :: cs) || listContainsSub needle cs

/-- Python `sub in s` (substring test). -/
def pyIn (sub s : String) : Bool :=
  listContainsSub sub.toList s.toList

/-- `'text/html' in ct` (Python substring test on the Content-Type header). -/
def containsTextHtml (ct : String) : Bool :=
  pyIn "text/html" ct

/-- Python `s.endswith(suffixStr)`. -/
def pyEndsWith (s suffixStr : String) : Bool :=
  listIsPrefix suffixStr.toList.reverse s.toList.reverse

/-- `WebCrawler.is_valid_url`, over the parsed components of the URL:
reject if the path or fragment ends with a blacklisted extension; then, if the
domain set is non-empty, accept exactly when the netloc equals an allowed
domain or ends with `"." + domain`; otherwise accept. -/
def is_valid_url (env : Env) (url : String) : Bool :=
  let p := env.parse url
  if env.blacklist.any (fun ext => pyEndsWith p.path ext || pyEndsWith p.fragment ext) then
    false
  else if !env.domains.isEmpty then
    env.domains.any (fun d => p.netloc == d || pyEndsWith p.netloc ("." ++ d))
  else
    true

/-- Dictionary insert-or-replace: `m[k] = v` on an ordered association list
(replace in place if the key is present, else append), as in CPython. -/
def upsert {α : Type} (m : List (String × α)) (k : String) (v : α) : List (String × α) :=
  if m.any (fun p => p.1 == k) then
    m.map (fun p => if p.1 == k then (k, v) else p)
  else
    m ++ [(k, v)]

/-- `m[k] = m.get(k, 0) + 1` on an ordered association list. -/
def bump {κ : Type} [BEq κ] (m : List (κ × Nat)) (k : κ) : List (κ × Nat) :=
  if m.any (fun p => p.1 == k) then
    m.map (fun p => if p.1 == k then (p.1, p.2 + 1) else p)
  else
    m ++ [(k, 1)]

/-- The `status_code_stats` key made from a child's `status_code` value. -/
def statKeyOf : Option Nat → StatKey
  | none => .null
  | some n => .int n

/-- State of a `WebCrawler` instance (plus ghost logs and a database-commit
counter used to index the `dbFail` oracle). `aborted` records that an
exception escaped the `while` loop. -/
structure CrawlerState where
  queue : List CrawlTask
  crawled_urls : List String
  url_data : List (String × UrlRecord)
  dequeue_log : List CrawlTask
  fetch_log : List CrawlTask
  db_calls : Nat
  aborted : Bool
deriving DecidableEq, Repr

/-- One database query+commit: consumes one index of the `dbFail` oracle and
reports whether it raised. -/
def dbOp (env : Env) (st : CrawlerState) : CrawlerState × Bool :=
  ({ st with db_calls := st.db_calls + 1 }, env.dbFail st.db_calls)

/-- Record built in the success (no-redirect) branch of the loop. -/
def successRecord (t : CrawlTask) (status content_size : Nat) (title : String) : UrlRecord :=
  { url := t.url, status_code := some status, content_size := content_size,
    title := title, parent_url := t.parent_url, statistics := zeroStats }

/-- Record built in the redirect branch: the redirect's status code and the
placeholder title `'no title'`. -/
def redirectRecord (t : CrawlTask) (status content_size : Nat) : UrlRecord :=
  { url := t.url, status_code := some status, content_size := content_size,
    title := "no title", parent_url := t.parent_url, statistics := zeroStats }

/-- Record built in the `except` branch: no content, title `'Error'`, and the
best-known status code (often `None`). -/
def errorRecord (t : CrawlTask) (status : Option Nat) : UrlRecord :=
  { url := t.url, status_code := status, content_size := 0,
    title := "Error", parent_url := t.parent_url, statistics := zeroStats }

/-- `is_error = status_code >= 400 if status_code else True` (Python
truthiness: `None` and `0` are falsy and count as errors). -/
def childIsError (status : Option Nat) : Bool :=
  if pyTruthy status then decide (400 ≤ status.getD 0) else true

/-- The in-place mutation of the parent's `statistics` dictionary performed by
`update_parent_statistics` for one completed child. -/
def rollupStats (env : Env) (stats : Statistics) (status : Option Nat)
    (child_url : String) : Statistics :=
  { total_urls_crawled := stats.total_urls_crawled + 1
    total_errors := stats.total_errors + (if childIsError status then 1 else 0)
    status_code_stats := bump stats.status_code_stats (statKeyOf status)
    domain_stats := bump stats.domain_stats (env.parse child_url).netloc }

/-- `WebCrawler.update_parent_statistics(parent_url, child_url)` (the
in-memory part plus one database commit). Looking up a missing parent or
child raises `KeyError` before any mutation; the in-memory increments are NOT
rolled back when the database commit fails (only the session is). Returns the
new state and whether the call raised. -/
def update_parent_statistics (env : Env) (st : CrawlerState)
    (parent_url child_url : String) : CrawlerState × Bool :=
  match st.url_data.lookup parent_url, st.url_data.lookup child_url with
  | some prec, some crec =>
    let st := { st with
      url_data := upsert st.url_data parent_url
        ({ prec with statistics := rollupStats env prec.statistics crec.status_code child_url }) }
    dbOp env st
  | _, _ => (st, true)

/-- Tail of one loop iteration: `if parent_url: self.update_parent_statistics(...)`.
This call sits OUTSIDE the per-task `try/except`, so a raise here escapes the
`while` loop. -/
def finishTask (env : Env) (st : CrawlerState) (t : CrawlTask) : CrawlerState :=
  match t.parent_url with
  | none => st
  | some p =>
    let (st, raised) := update_parent_statistics env st p t.url
    if raised then { st with aborted := true } else st

/-- The `except Exception` branch of the loop body: store an error record and
`save_to_database`; a raise from that save escapes the loop. -/
def exceptBranch (env : Env) (st : CrawlerState) (t : CrawlTask) (status : Option Nat) :
    CrawlerState :=
  let st := { st with url_data := upsert st.url_data t.url (errorRecord t status) }
  let (st, raised) := dbOp env st
  if raised then { st with aborted := true } else finishTask env st t

/-- The no-redirect arm of the loop body: extract and filter links, store the
record, `save_to_database` (a raise there is caught by the surrounding
`except`, which stores an error record and saves again), then enqueue the
valid links that are not yet crawled. -/
def successBranch (env : Env) (st : CrawlerState) (t : CrawlTask)
    (status csize : Nat) (ctype : String) (links : List String) (title : String) :
    CrawlerState :=
  let valid_links := (if containsTextHtml ctype then links else []).filter
    (fun l => is_valid_url env l)
  let st := { st with
    url_data := upsert st.url_data t.url (successRecord t status csize title) }
  let (st, raised) := dbOp env st
  if raised then
    exceptBranch env st t none
  else
    let st := { st with queue := st.queue ++
      ((valid_links.filter (fun l => !st.crawled_urls.contains l)).map
        (fun l => ⟨l, t.depth + 1, some t.url, 0⟩)) }
    finishTask env st t

/-- The redirect arm of the loop body: store the redirect record and enqueue
the target at the same depth with `redirect_count + 1` — unconditionally (no
comparison against `max_redirect_count` happens here). -/
def redirectBranch (env : Env) (st : CrawlerState) (t : CrawlTask)
    (status csize : Nat) (target : String) : CrawlerState :=
  let st := { st with
    url_data := upsert st.url_data t.url (redirectRecord t status csize) }
  let st := { st with queue := st.queue ++ [⟨target, t.depth, some t.url, t.redirect_count + 1⟩] }
  finishTask env st t

/-- The `try:` body of one loop iteration, after the guards have passed and
the URL has been marked crawled: fetch and branch on the outcome. -/
def fetchAndProcess (env : Env) (st : CrawlerState) (t : CrawlTask) : CrawlerState :=
  match env.fetch t.url with
  | .resp status csize location ctype links title =>
    match location with
    | none => successBranch env st t status csize ctype links title
    | some target => redirectBranch env st t status csize target
  | .raised status => exceptBranch env st t status

/-- One iteration of the `while self.queue` loop in `WebCrawler.crawl`:
pop the front task, apply the dequeue-time guards, mark visited, fetch, and
branch on no-redirect / redirect / exception. -/
def step (env : Env) (st : CrawlerState) : CrawlerState :=
  if st.aborted then st else
  match st.queue with
  | [] => st
  | t :: rest =>
    let st := { st with queue := rest, dequeue_log := st.dequeue_log ++ [t] }
    if t.depth > env.max_depth || st.crawled_urls.contains t.url then st
    else if t.redirect_count > env.max_redirect_count then st
    else
      fetchAndProcess env
        { st with crawled_urls := st.crawled_urls ++ [t.url],
                  fetch_log := st.fetch_log ++ [t] } t

/-- Run up to `n` loop iterations; the loop exits when the queue empties or an
exception escapes (`aborted`). -/
def runSteps (env : Env) : Nat → CrawlerState → CrawlerState
  | 0, st => st
  | n + 1, st => if st.aborted || st.queue.isEmpty then st else runSteps env n (step env st)

/-- State after `start(seed)` has cleared everything and `crawl(seed)` has
enqueued the seed task `(start_url, 0, None, 0)`. -/
def startState (seed : String) : CrawlerState :=
  { queue := [⟨seed, 0, none, 0⟩], crawled_urls := [], url_data := [],
    dequeue_log := [], fetch_log := [], db_calls := 0, aborted := false }

/-!
State persistence (`save_state` / `load_state`).

`save_state` writes `{'queue': list(self.queue), 'crawled_urls':
list(self.crawled_urls), 'url_data': self.url_data}` with `json.dump`;
`load_state` reads it back.  JSON object keys are strings: `json.dump`
coerces an `int` dictionary key to its decimal string and a `None` key to
`"null"`, so after `load_state` every key of a `status_code_stats`
dictionary is a string.  Everything else survives the round trip unchanged:
the queue keeps its elements' four components in order (tuples come back as
lists with the same components), `crawled_urls` is a set rebuilt from the
same elements, string keys and all non-key values are preserved.
-/

/-- The string `json.dump` writes for a `status_code_stats` key. -/
def jsonKeyStr : StatKey → String
  | .int n => toString n
  | .null => "null"
  | .str s => s

/-- What a `status_code_stats` key becomes after `json.dump`/`json.load`. -/
def jsonRoundTripKey (k : StatKey) : StatKey := .str (jsonKeyStr k)

/-- A record after the JSON round trip: only the `status_code_stats` keys
change (to strings). -/
def saveLoadRecord (r : UrlRecord) : UrlRecord :=
  { r with statistics :=
      { r.statistics with status_code_stats :=
          r.statistics.status_code_stats.map (fun p => (jsonRoundTripKey p.1, p.2)) } }

/-- `load_state` applied to the file `save_state` wrote: the composite effect
of persisting and restoring `(queue, crawled_urls, url_data)`.  Ghost logs and
the commit counter are not part of the snapshot and carry over unchanged. -/
def save_load (st : CrawlerState) : CrawlerState :=
  { st with url_data := st.url_data.map (fun p => (p.1, saveLoadRecord p.2)) }

/-!
Retry policy (`crawl_url_with_retry` and its `tenacity` decorator):
`stop=stop_after_attempt(3)`, `wait=wait_exponential(multiplier=1, min=4,
max=10)`, `retry=retry_if_exception_type((ConnectionError, Timeout,
RequestException))`.
-/

/-- The exceptions a fetch attempt can raise.  In `requests`,
`ConnectionError`, `Timeout`, and every URL-shape error such as
`MissingSchema`/`InvalidURL` (raised for a malformed URL) are subclasses of
`requests.exceptions.RequestException`; `nonRequestError` stands for any
exception outside that hierarchy. -/
inductive ReqError where
  | connectionError
  | timeout
  | missingSchema
  | otherRequestException
  | nonRequestError
deriving DecidableEq, Repr

/-- `retry_if_exception_type((ConnectionError, Timeout, RequestException))`:
the `isinstance` test against the three listed classes.  Since
`RequestException` is the base class of all `requests` exceptions, every
request-level exception passes the test. -/
def isRetriedException : ReqError → Bool
  | .nonRequestError => false
  | _ => true

/-- `tenacity.wait_exponential(multiplier, min, max)` evaluated at
`attempt_number`: `max(max(0, min), min(multiplier * 2 ** attempt_number, max))`. -/
def wait_exponential (multiplier minW maxW attempt_number : Nat) : Nat :=
  max (max 0 minW) (min (multiplier * 2 ^ attempt_number) maxW)

/-- The retrying loop `tenacity` wraps around one call of
`crawl_url_with_retry`'s body.  `oracle k` is the outcome of the `k`-th
attempt (1-based).  `remaining` counts the retries still allowed by
`stop_after_attempt(3)` (2 when entering at attempt 1).  Returns the number
of attempts actually made, the list of backoff waits slept, and the final
outcome (`.error e` models both an immediately re-raised non-retryable
exception and the `RetryError` raised once the stop condition is reached). -/
def tenacityLoop {α : Type} (oracle : Nat → Except ReqError α) :
    Nat → Nat → List Nat → Nat × List Nat × Except ReqError α
  | remaining, k, waits =>
    match oracle k with
    | .ok a => (k, waits, .ok a)
    | .error e =>
      if isRetriedException e then
        match remaining with
        | 0 => (k, waits, .error e)
        | r + 1 =>
          tenacityLoop oracle r (k + 1) (waits ++ [wait_exponential 1 4 10 k])
      else
        (k, waits, .error e)

/-- `crawl_url_with_retry` under the decorator
`retry(stop=stop_after_attempt(3), wait=wait_exponential(multiplier=1, min=4, max=10), ...)`:
up to 3 total attempts starting at attempt number 1. -/
def crawl_url_with_retry {α : Type} (oracle : Nat → Except ReqError α) :
    Nat × List Nat × Except ReqError α :=
  tenacityLoop oracle 2 1 []

/-!
Concrete environments used to evaluate the model on small mocked runs
(deterministic fetch oracles, as in the repository's mock-based tests).
-/

/-- URL parser oracle for the mocked URLs (values `urlparse` would return). -/
def exParse : String → ParsedUrl := fun u =>
  if u == "http://a.test/" then ⟨"a.test", "/", ""⟩
  else if u == "http://a.test/p1" then ⟨"a.test", "/p1", ""⟩
  else if u == "http://a.test/p2" then ⟨"a.test", "/p2", ""⟩
  else if u == "http://a.test/img.jpg" then ⟨"a.test", "/img.jpg", ""⟩
  else ⟨"", "", ""⟩

/-- A page at the seed linking twice to the same child page. -/
def envDup : Env :=
  { max_depth := 2, max_redirect_count := 5, domains := [], blacklist := [],
    parse := exParse,
    fetch := fun u =>
      if u == "http://a.test/" then
        .resp 200 10 none "text/html" ["http://a.test/p1", "http://a.test/p1"] "T"
      else if u == "http://a.test/p1" then
        .resp 200 5 none "text/html" [] "T1"
      else .raised none,
    dbFail := fun _ => false }

/-- A seed that redirects, with `max_redirect_count = 0`. -/
def envRedirect : Env :=
  { max_depth := 2, max_redirect_count := 0, domains := [], blacklist := [],
    parse := exParse,
    fetch := fun u =>
      if u == "http://a.test/" then
        .resp 301 0 (some "http://a.test/p1") "text/html" [] "x"
      else if u == "http://a.test/p1" then
        .resp 200 5 none "text/html" [] "T1"
      else .raised none,
    dbFail := fun _ => false }

/-- A seed that redirects to a blacklisted (`.jpg`) URL. -/
def envJpg : Env :=
  { max_depth := 2, max_redirect_count := 5, domains := [], blacklist := [".jpg"],
    parse := exParse,
    fetch := fun u =>
      if u == "http://a.test/" then
        .resp 301 0 (some "http://a.test/img.jpg") "text/html" [] "x"
      else if u == "http://a.test/img.jpg" then
        .resp 200 7 none "text/html" [] "IMG"
      else .raised none,
    dbFail := fun _ => false }

/-- A child page answering with status code `0` (a falsy status). -/
def envZero : Env :=
  { max_depth := 2, max_redirect_count := 5, domains := [], blacklist := [],
    parse := exParse,
    fetch := fun u =>
      if u == "http://a.test/" then
        .resp 200 10 none "text/html" ["http://a.test/p1"] "T"
      else if u == "http://a.test/p1" then
        .resp 0 5 none "text/html" [] "T1"
      else .raised none,
    dbFail := fun _ => false }

/-- A run whose third database commit (the parent-statistics commit for the
first child) raises. -/
def envDbFail : Env :=
  { max_depth := 2, max_redirect_count := 5, domains := [], blacklist := [],
    parse := exParse,
    fetch := fun u =>
      if u == "http://a.test/" then
        .resp 200 10 none "text/html" ["http://a.test/p1"] "T"
      else if u == "http://a.test/p1" then
        .resp 200 5 none "text/html" ["http://a.test/p2"] "T1"
      else .raised none,
    dbFail := fun n => n == 2 }

/-!
Frame lemmas: which state fields each piece of the loop body leaves alone.
-/

theorem dbOp_fst (env : Env) (st : CrawlerState) :
    (dbOp env st).1 = { st with db_calls := st.db_calls + 1 } := rfl

@[simp] theorem update_parent_queue (env : Env) (st : CrawlerState) (p c : String) :
    (update_parent_statistics env st p c).1.queue = st.queue := by
  unfold update_parent_statistics
  cases st.url_data.lookup p <;> cases st.url_data.lookup c <;> simp [dbOp]

@[simp] theorem update_parent_crawled (env : Env) (st : CrawlerState) (p c : String) :
    (update_parent_statistics env st p c).1.crawled_urls = st.crawled_urls := by
  unfold update_parent_statistics
  cases st.url_data.lookup p <;> cases st.url_data.lookup c <;> simp [dbOp]

@[simp] theorem update_parent_dequeue_log (env : Env) (st : CrawlerState) (p c : String) :
    (update_parent_statistics env st p c).1.dequeue_log = st.dequeue_log := by
  unfold update_parent_statistics
  cases st.url_data.lookup p <;> cases st.url_data.lookup c <;> simp [dbOp]

@[simp] theorem update_parent_fetch_log (env : Env) (st : CrawlerState) (p c : String) :
    (update_parent_statistics env st p c).1.fetch_log = st.fetch_log := by
  unfold update_parent_statistics
  cases st.url_data.lookup p <;> cases st.url_data.lookup c <;> simp [dbOp]

@[simp] theorem finishTask_queue (env : Env) (st : CrawlerState) (t : CrawlTask) :
    (finishTask env st t).queue = st.queue := by
  unfold finishTask
  cases t.parent_url <;> simp
  split <;> simp

@[simp] theorem finishTask_crawled (env : Env) (st : CrawlerState) (t : CrawlTask) :
    (finishTask env st t).crawled_urls = st.crawled_urls := by
  unfold finishTask
  cases t.parent_url <;> simp
  split <;> simp

@[simp] theorem finishTask_dequeue_log (env : Env) (st : CrawlerState) (t : CrawlTask) :
    (finishTask env st t).dequeue_log = st.dequeue_log := by
  unfold finishTask
  cases t.parent_url <;> simp
  split <;> simp

@[simp] theorem finishTask_fetch_log (env : Env) (st : CrawlerState) (t : CrawlTask) :
    (finishTask env st t).fetch_log = st.fetch_log := by
  unfold finishTask
  cases t.parent_url <;> simp
  split <;> simp

@[simp] theorem exceptBranch_queue (env : Env) (st : CrawlerState) (t : CrawlTask)
    (status : Option Nat) : (exceptBranch env st t status).queue = st.queue := by
  unfold exceptBranch
  simp only [dbOp]
  split <;> simp

@[simp] theorem exceptBranch_crawled (env : Env) (st : CrawlerState) (t : CrawlTask)
    (status : Option Nat) : (exceptBranch env st t status).crawled_urls = st.crawled_urls := by
  unfold exceptBranch
  simp only [dbOp]
  split <;> simp

@[simp] theorem exceptBranch_dequeue_log (env : Env) (st : CrawlerState) (t : CrawlTask)
    (status : Option Nat) : (exceptBranch env st t status).dequeue_log = st.dequeue_log := by
  unfold exceptBranch
  simp only [dbOp]
  split <;> simp

@[simp] theorem exceptBranch_fetch_log (env : Env) (st : CrawlerState) (t : CrawlTask)
    (status : Option Nat) : (exceptBranch env st t status).fetch_log = st.fetch_log := by
  unfold exceptBranch
  simp only [dbOp]
  split <;> simp

theorem fetchAndProcess_crawled (env : Env) (st : CrawlerState) (t : CrawlTask) :
    (fetchAndProcess env st t).crawled_urls = st.crawled_urls := by
  unfold fetchAndProcess successBranch redirectBranch
  cases env.fetch t.url with
  | resp status csize location ctype links title =>
    cases location
    · simp only [dbOp]
      split <;> simp
    · simp
  | raised status => simp

theorem fetchAndProcess_fetch_log (env : Env) (st : CrawlerState) (t : CrawlTask) :
    (fetchAndProcess env st t).fetch_log = st.fetch_log := by
  unfold fetchAndProcess successBranch redirectBranch
  cases env.fetch t.url with
  | resp status csize location ctype links title =>
    cases location
    · simp only [dbOp]
      split <;> simp
    · simp
  | raised status => simp

theorem fetchAndProcess_dequeue_log (env : Env) (st : CrawlerState) (t : CrawlTask) :
    (fetchAndProcess env st t).dequeue_log = st.dequeue_log := by
  unfold fetchAndProcess successBranch redirectBranch
  cases env.fetch t.url with
  | resp status csize location ctype links title =>
    cases location
    · simp only [dbOp]
      split <;> simp
    · simp
  | raised status => simp

/-!
Characterizations of one loop iteration.
-/

theorem step_of_aborted {env : Env} {st : CrawlerState} (hA : st.aborted = true) :
    step env st = st := by
  unfold step
  simp [hA]

theorem step_of_nil {env : Env} {st : CrawlerState} (hq : st.queue = []) :
    step env st = st := by
  unfold step
  split
  · rfl
  · split
    · rfl
    · rename_i t rest heq
      rw [hq] at heq
      cases heq

/-- A task failing a dequeue-time guard (depth, already-visited, or redirect
count) is dropped: the iteration only pops it and logs the pop. -/
theorem step_skip {env : Env} {st : CrawlerState} {t : CrawlTask} {rest : List CrawlTask}
    (hA : st.aborted = false) (hq : st.queue = t :: rest)
    (hg : t.depth > env.max_depth ∨ st.crawled_urls.contains t.url = true ∨
      t.redirect_count > env.max_redirect_count) :
    step env st = { st with queue := rest, dequeue_log := st.dequeue_log ++ [t] } := by
  unfold step
  rw [hA, hq]
  simp only [Bool.false_eq_true, if_false]
  rcases hg with hg | hg | hg
  · simp [hg]
  · have hmem : t.url ∈ st.crawled_urls := by simpa using hg
    simp [hmem]
  · rcases Nat.lt_or_ge env.max_depth t.depth with h1 | h1
    · simp [h1]
    · cases h2 : st.crawled_urls.contains t.url
      · have hmem : t.url ∉ st.crawled_urls := by simpa using h2
        simp [Nat.not_lt.mpr h1, hmem, hg]
      · have hmem : t.url ∈ st.crawled_urls := by simpa using h2
        simp [hmem]

/-- A task passing all dequeue-time guards is marked crawled, logged as
fetched, and processed. -/
theorem step_fetch {env : Env} {st : CrawlerState} {t : CrawlTask} {rest : List CrawlTask}
    (hA : st.aborted = false) (hq : st.queue = t :: rest)
    (h1 : t.depth ≤ env.max_depth) (h2 : st.crawled_urls.contains t.url = false)
    (h3 : t.redirect_count ≤ env.max_redirect_count) :
    step env st = fetchAndProcess env
      { st with queue := rest, dequeue_log := st.dequeue_log ++ [t],
                crawled_urls := st.crawled_urls ++ [t.url],
                fetch_log := st.fetch_log ++ [t] } t := by
  unfold step
  rw [hA, hq]
  have hmem : t.url ∉ st.crawled_urls := by simpa using h2
  simp [Nat.not_lt.mpr h1, hmem, Nat.not_lt.mpr h3]

/-!
The fetch-log invariant behind the at-most-once guarantee.
-/

/-- Invariant carried by every run: fetched URLs are pairwise distinct, every
fetched URL is in the visited set, and every fetched task passed the
dequeue-time guards. -/
def FetchLogInv (env : Env) (st : CrawlerState) : Prop :=
  (st.fetch_log.map (fun t => t.url)).Nodup ∧
  (∀ t ∈ st.fetch_log, t.url ∈ st.crawled_urls) ∧
  (∀ t ∈ st.fetch_log, t.depth ≤ env.max_depth ∧ t.redirect_count ≤ env.max_redirect_count)

theorem step_preserves_fetchLogInv {env : Env} {st : CrawlerState}
    (h : FetchLogInv env st) : FetchLogInv env (step env st) := by
  obtain ⟨hnd, hsub, hbnd⟩ := h
  by_cases hA : st.aborted = true
  · rw [step_of_aborted hA]; exact ⟨hnd, hsub, hbnd⟩
  have hA' : st.aborted = false := by simpa using hA
  cases hq : st.queue with
  | nil => rw [step_of_nil hq]; exact ⟨hnd, hsub, hbnd⟩
  | cons t rest =>
    by_cases hg : t.depth > env.max_depth ∨ st.crawled_urls.contains t.url = true ∨
        t.redirect_count > env.max_redirect_count
    · rw [step_skip hA' hq hg]
      exact ⟨hnd, hsub, hbnd⟩
    · push_neg at hg
      obtain ⟨h1, h2, h3⟩ := hg
      have h2' : st.crawled_urls.contains t.url = false := by
        cases hc : st.crawled_urls.contains t.url
        · rfl
        · exact absurd hc h2
      have hmem : t.url ∉ st.crawled_urls := by simpa using h2'
      rw [step_fetch hA' hq h1 h2' h3]
      rw [FetchLogInv, fetchAndProcess_crawled, fetchAndProcess_fetch_log]
      refine ⟨?_, ?_, ?_⟩
      · rw [List.map_append]
        rw [List.nodup_append]
        refine ⟨hnd, by simp, ?_⟩
        intro u hu hu'
        simp at hu'
        subst hu'
        obtain ⟨t', ht', heq⟩ := List.mem_map.mp hu
        exact hmem (heq ▸ hsub t' ht')
      · intro t' ht'
        rcases List.mem_append.mp ht' with h | h
        · exact List.mem_append_left _ (hsub t' h)
        · simp at h
          subst h
          simp
      · intro t' ht'
        rcases List.mem_append.mp ht' with h | h
        · exact hbnd t' h
        · simp at h
          subst h
          exact ⟨h1, h3⟩

theorem runSteps_preserves_fetchLogInv (env : Env) (n : Nat) {st : CrawlerState}
    (h : FetchLogInv env st) : FetchLogInv env (runSteps env n st) := by
  induction n generalizing st with
  | zero => exact h
  | succ n ih =>
    unfold runSteps
    split
    · exact h
    · exact ih (step_preserves_fetchLogInv h)

theorem startState_fetchLogInv (env : Env) (seed : String) :
    FetchLogInv env (startState seed) := by
  refine ⟨?_, ?_, ?_⟩ <;> simp [startState]

/-- Case analysis of one iteration's effect on the fetch log: either no fetch
is issued (empty queue, aborted loop, or a guard-skipped task), or the head
task passed every guard and exactly it is fetched. -/
theorem step_fetch_log_cases (env : Env) (st : CrawlerState) :
    (step env st).fetch_log = st.fetch_log ∨
      ∃ t rest, st.queue = t :: rest ∧ t.depth ≤ env.max_depth ∧
        t.url ∉ st.crawled_urls ∧ t.redirect_count ≤ env.max_redirect_count ∧
        (step env st).fetch_log = st.fetch_log ++ [t] := by
  by_cases hA : st.aborted = true
  · left; rw [step_of_aborted hA]
  have hA' : st.aborted = false := by simpa using hA
  cases hq : st.queue with
  | nil => left; rw [step_of_nil hq]
  | cons t rest =>
    by_cases hg : t.depth > env.max_depth ∨ st.crawled_urls.contains t.url = true ∨
        t.redirect_count > env.max_redirect_count
    · left; rw [step_skip hA' hq hg]
    · push_neg at hg
      obtain ⟨h1, h2, h3⟩ := hg
      have h2' : st.crawled_urls.contains t.url = false := by
        cases hc : st.crawled_urls.contains t.url
        · rfl
        · exact absurd hc h2
      have hmem : t.url ∉ st.crawled_urls := by simpa using h2'
      right
      refine ⟨t, rest, rfl, h1, hmem, h3, ?_⟩
      rw [step_fetch hA' hq h1 h2' h3]
      rw [fetchAndProcess_fetch_log]

/-- Domain-filtered environment mirroring the repository's own
`test_is_valid_url` configuration. -/
def exParseDom : String → ParsedUrl := fun u =>
  if u == "https://www.example.com/page" then ⟨"www.example.com", "/page", ""⟩
  else if u == "https://www.example.com/image.jpg" then ⟨"www.example.com", "/image.jpg", ""⟩
  else if u == "https://www.example.com/page#image.jpg" then ⟨"www.example.com", "/page", "image.jpg"⟩
  else if u == "https://www.otherdomain.com/page" then ⟨"www.otherdomain.com", "/page", ""⟩
  else ⟨"", "", ""⟩

def envDomains : Env :=
  { max_depth := 2, max_redirect_count := 5, domains := ["example.com"],
    blacklist := [".jpg", ".png"], parse := exParseDom,
    fetch := fun _ => .raised none, dbFail := fun _ => false }

/-- Sanity check replaying `test_is_valid_url` from the repository's tests. -/
theorem is_valid_url_matches_repo_tests :
    is_valid_url envDomains "https://www.example.com/page" = true ∧
    is_valid_url envDomains "https://www.example.com/image.jpg" = false ∧
    is_valid_url envDomains "https://www.example.com/page#image.jpg" = false ∧
    is_valid_url envDomains "https://www.otherdomain.com/page" = false := by
  decide

/-- C1: In every run of the crawl loop from `start(seed)`, each distinct URL
string is fetched at most once, and every fetched task has depth and redirect
count within their bounds (in particular no task with depth > maxDepth is
ever fetched); moreover any single iteration either issues no fetch at all or
fetches exactly the dequeued head task, and only when that task's depth is at
most `max_depth`, its redirect count at most `max_redirect_count`, and its URL
not yet visited — a task failing a guard is skipped without a fetch. -/
theorem c1_each_url_fetched_at_most_once (env : Env) (seed : String) (n : Nat) :
    (((runSteps env n (startState seed)).fetch_log.map (fun t => t.url)).Nodup ∧
      ∀ t ∈ (runSteps env n (startState seed)).fetch_log,
        t.depth ≤ env.max_depth ∧ t.redirect_count ≤ env.max_redirect_count) ∧
    ∀ st : CrawlerState, (step env st).fetch_log = st.fetch_log ∨
      ∃ t rest, st.queue = t :: rest ∧ t.depth ≤ env.max_depth ∧
        t.url ∉ st.crawled_urls ∧ t.redirect_count ≤ env.max_redirect_count ∧
        (step env st).fetch_log = st.fetch_log ++ [t] := by
  constructor
  · have h := runSteps_preserves_fetchLogInv env n (startState_fetchLogInv env seed)
    exact ⟨h.1, h.2.2⟩
  · intro st
    exact step_fetch_log_cases env st

/-- Witness for C1 at a concrete two-page run. -/
theorem c1_each_url_fetched_at_most_once_witness :
    ((runSteps envDup 6 (startState "http://a.test/")).fetch_log.map (fun t => t.url)).Nodup ∧
    (⟨"http://a.test/", 0, none, 0⟩ : CrawlTask).depth ≤ envDup.max_depth := by
  have h := c1_each_url_fetched_at_most_once envDup "http://a.test/" 6
  exact ⟨h.1.1, (h.1.2 ⟨"http://a.test/", 0, none, 0⟩ (by decide)).1⟩

/-- C10: a task skipped at dequeue time because its depth or its redirect
count exceeds its bound does not get its URL added to the visited set (and is
not fetched); only a task passing all dequeue guards marks its URL visited,
so the same URL is still fetched when later dequeued from an in-bounds task. -/
theorem c10_skipped_task_not_marked_visited (env : Env) (st : CrawlerState)
    (t : CrawlTask) (rest : List CrawlTask) (hA : st.aborted = false)
    (hq : st.queue = t :: rest) :
    (env.max_depth < t.depth ∨ env.max_redirect_count < t.redirect_count →
      (step env st).crawled_urls = st.crawled_urls ∧ (step env st).fetch_log = st.fetch_log) ∧
    (t.depth ≤ env.max_depth → t.url ∉ st.crawled_urls →
      t.redirect_count ≤ env.max_redirect_count →
      (step env st).crawled_urls = st.crawled_urls ++ [t.url] ∧
      (step env st).fetch_log = st.fetch_log ++ [t]) := by
  constructor
  · intro hg
    have hg' : t.depth > env.max_depth ∨ st.crawled_urls.contains t.url = true ∨
        t.redirect_count > env.max_redirect_count := by
      rcases hg with h | h
      · exact Or.inl h
      · exact Or.inr (Or.inr h)
    rw [step_skip hA hq hg']
    exact ⟨rfl, rfl⟩
  · intro h1 hmem h3
    have h2' : st.crawled_urls.contains t.url = false := by
      cases hc : st.crawled_urls.contains t.url
      · rfl
      · exact absurd (by simpa using hc) hmem
    rw [step_fetch hA hq h1 h2' h3, fetchAndProcess_crawled, fetchAndProcess_fetch_log]
    exact ⟨rfl, rfl⟩

/-- Witness for C10: the over-limit redirect task of `envRedirect` is skipped
without marking its URL visited, while the in-bounds seed task of `envDup`
does mark its URL visited. -/
theorem c10_skipped_task_not_marked_visited_witness :
    (step envRedirect (runSteps envRedirect 1 (startState "http://a.test/"))).crawled_urls =
      (runSteps envRedirect 1 (startState "http://a.test/")).crawled_urls ∧
    (step envDup (startState "http://a.test/")).crawled_urls =
      (startState "http://a.test/").crawled_urls ++ ["http://a.test/"] := by
  constructor
  · exact ((c10_skipped_task_not_marked_visited envRedirect
      (runSteps envRedirect 1 (startState "http://a.test/"))
      ⟨"http://a.test/p1", 0, some "http://a.test/", 1⟩ [] (by decide) (by decide)).1
      (by decide)).1
  · exact ((c10_skipped_task_not_marked_visited envDup (startState "http://a.test/")
      ⟨"http://a.test/", 0, none, 0⟩ [] (by decide) (by decide)).2
      (by decide) (by decide) (by decide)).1

/-- C8: the validity filter returns `false` whenever the URL's path or
fragment ends with a blacklisted extension; otherwise, with a non-empty
domain allow-list it returns `true` exactly when the URL's host equals an
allowed domain or is a subdomain of one (ends with `"." + domain`), and with
an empty allow-list it returns `true`. -/
theorem c8_validity_filter_spec (env : Env) (url : String) :
    ((∃ ext ∈ env.blacklist, pyEndsWith (env.parse url).path ext = true ∨
        pyEndsWith (env.parse url).fragment ext = true) →
      is_valid_url env url = false) ∧
    ((∀ ext ∈ env.blacklist, pyEndsWith (env.parse url).path ext = false ∧
        pyEndsWith (env.parse url).fragment ext = false) →
      (env.domains ≠ [] →
        (is_valid_url env url = true ↔
          ∃ d ∈ env.domains, (env.parse url).netloc = d ∨
            pyEndsWith (env.parse url).netloc ("." ++ d) = true)) ∧
      (env.domains = [] → is_valid_url env url = true)) := by
  constructor
  · rintro ⟨ext, hmem, hcase⟩
    unfold is_valid_url
    have hb : env.blacklist.any (fun ext => pyEndsWith (env.parse url).path ext ||
        pyEndsWith (env.parse url).fragment ext) = true := by
      refine List.any_eq_true.mpr ⟨ext, hmem, ?_⟩
      rcases hcase with h | h <;> simp [h]
    simp [hb]
  · intro hall
    have hb : env.blacklist.any (fun ext => pyEndsWith (env.parse url).path ext ||
        pyEndsWith (env.parse url).fragment ext) = false := by
      rw [List.any_eq_false]
      intro ext hmem
      simp [(hall ext hmem).1, (hall ext hmem).2]
    constructor
    · intro hd
      unfold is_valid_url
      simp only [hb, Bool.false_eq_true, if_false]
      have hne : (!env.domains.isEmpty) = true := by
        cases henv : env.domains
        · exact absurd henv hd
        · simp [henv]
      rw [if_pos hne]
      rw [List.any_eq_true]
      constructor
      · rintro ⟨d, hdm, hcond⟩
        refine ⟨d, hdm, ?_⟩
        rcases Bool.or_eq_true_iff.mp hcond with h | h
        · exact Or.inl (by simpa using h)
        · exact Or.inr h
      · rintro ⟨d, hdm, hcond⟩
        refine ⟨d, hdm, ?_⟩
        rcases hcond with h | h
        · simp [h]
        · simp [h]
    · intro hd
      unfold is_valid_url
      simp [hb, hd]

/-- Witness for C8: a blacklisted `.jpg` path is rejected; with the allow-list
`["example.com"]` the host `www.example.com` is accepted as a subdomain. -/
theorem c8_validity_filter_spec_witness :
    is_valid_url envJpg "http://a.test/img.jpg" = false ∧
    is_valid_url envDomains "https://www.example.com/page" = true := by
  constructor
  · exact (c8_validity_filter_spec envJpg "http://a.test/img.jpg").1
      ⟨".jpg", by decide, Or.inl (by decide)⟩
  · exact ((c8_validity_filter_spec envDomains "https://www.example.com/page").2
      (by decide)).1 (by decide) |>.mpr ⟨"example.com", by decide, Or.inr (by decide)⟩

/-!
Association-list lemmas about `upsert`, `bump` and `List.lookup`.
-/

theorem lookup_of_no_key {α : Type} {m : List (String × α)} {k : String}
    (h : m.any (fun p => p.1 == k) = false) : m.lookup k = none := by
  induction m with
  | nil => rfl
  | cons hd tl ih =>
    rw [List.any_cons] at h
    rcases Bool.or_eq_false_iff.mp h with ⟨h1, h2⟩
    have : (k == hd.1) = false := by
      simp only [beq_eq_false_iff_ne] at h1 ⊢
      exact fun he => h1 he.symm
    simp [List.lookup, this, ih h2]

theorem lookup_map_put {α : Type} (m : List (String × α)) (k : String) (v : α)
    (hany : m.any (fun p => p.1 == k) = true) :
    (m.map (fun p => if p.1 == k then (k, v) else p)).lookup k = some v := by
  induction m with
  | nil => simp at hany
  | cons hd tl ih =>
    rw [List.map_cons]
    by_cases h : hd.1 = k
    · have h' : (hd.1 == k) = true := by simp [h]
      rw [if_pos h']
      simp [List.lookup]
    · have h' : (hd.1 == k) = false := by simp [h]
      have h'' : (k == hd.1) = false := by
        simp only [beq_eq_false_iff_ne] at h' ⊢
        exact fun he => h' he.symm
      rw [List.any_cons] at hany
      have htl : tl.any (fun p => p.1 == k) = true := by
        rcases Bool.or_eq_true_iff.mp hany with hh | hh
        · rw [h'] at hh; cases hh
        · exact hh
      rw [if_neg (by simp [h'])]
      rw [List.lookup, h'']
      exact ih htl

theorem lookup_append_put {α : Type} (m : List (String × α)) (k : String) (v : α)
    (hnone : m.any (fun p => p.1 == k) = false) :
    (m ++ [(k, v)]).lookup k = some v := by
  induction m with
  | nil => simp [List.lookup]
  | cons hd tl ih =>
    rw [List.any_cons] at hnone
    rcases Bool.or_eq_false_iff.mp hnone with ⟨h1, h2⟩
    have h'' : (k == hd.1) = false := by
      simp only [beq_eq_false_iff_ne] at h1 ⊢
      exact fun he => h1 he.symm
    rw [List.cons_append, List.lookup, h'']
    exact ih h2

theorem lookup_upsert_self {α : Type} (m : List (String × α)) (k : String) (v : α) :
    (upsert m k v).lookup k = some v := by
  unfold upsert
  split
  · rename_i hany
    exact lookup_map_put m k v hany
  · rename_i hany
    have hnone : m.any (fun p => p.1 == k) = false := by
      cases hc : m.any (fun p => p.1 == k)
      · rfl
      · exact absurd hc hany
    exact lookup_append_put m k v hnone

theorem lookup_map_put_ne {α : Type} (m : List (String × α)) (k : String) (v : α)
    {u : String} (h : u ≠ k) :
    (m.map (fun p => if p.1 == k then (k, v) else p)).lookup u = m.lookup u := by
  have hu' : (u == k) = false := by simp [h]
  induction m with
  | nil => rfl
  | cons hd tl ih =>
    rw [List.map_cons]
    by_cases hh : hd.1 = k
    · have hh' : (hd.1 == k) = true := by simp [hh]
      have hne : (u == hd.1) = false := by simp [hh, h]
      rw [if_pos hh', List.lookup, hu', List.lookup, hne]
      exact ih
    · have hh' : (hd.1 == k) = false := by simp [hh]
      by_cases hu : u = hd.1
      · have hub : (u == hd.1) = true := by simp [hu]
        rw [if_neg (by simp [hh']), List.lookup, hub, List.lookup, hub]
      · have hub : (u == hd.1) = false := by simp [hu]
        rw [if_neg (by simp [hh']), List.lookup, hub, List.lookup, hub]
        exact ih

theorem lookup_append_single_ne {α : Type} (m : List (String × α)) (kv : String × α)
    {u : String} (h : (u == kv.1) = false) : (m ++ [kv]).lookup u = m.lookup u := by
  induction m with
  | nil => simp [List.lookup, h]
  | cons hd tl ih =>
    by_cases hu : u = hd.1
    · have hub : (u == hd.1) = true := by simp [hu]
      rw [List.cons_append, List.lookup, hub, List.lookup, hub]
    · have hub : (u == hd.1) = false := by simp [hu]
      rw [List.cons_append, List.lookup, hub, List.lookup, hub]
      exact ih

theorem lookup_upsert_ne {α : Type} (m : List (String × α)) (k : String) (v : α)
    {u : String} (h : u ≠ k) : (upsert m k v).lookup u = m.lookup u := by
  have hu' : (u == k) = false := by simp [h]
  unfold upsert
  split
  · exact lookup_map_put_ne m k v h
  · exact lookup_append_single_ne m (k, v) hu'

/-!
Generic-key association-list lemmas (used for `bump`, whose keys are
`StatKey` or `String`).
-/

theorem lookup_of_no_key_gen {κ α : Type} [BEq κ] [LawfulBEq κ] {m : List (κ × α)} {k : κ}
    (h : m.any (fun p => p.1 == k) = false) : m.lookup k = none := by
  induction m with
  | nil => rfl
  | cons hd tl ih =>
    rw [List.any_cons] at h
    rcases Bool.or_eq_false_iff.mp h with ⟨h1, h2⟩
    have h'' : (k == hd.1) = false := by
      simp only [beq_eq_false_iff_ne] at h1 ⊢
      exact fun he => h1 he.symm
    rw [List.lookup, h'']
    exact ih h2

theorem lookup_bump_map {κ : Type} [BEq κ] [LawfulBEq κ] (m : List (κ × Nat)) (k : κ)
    (hany : m.any (fun p => p.1 == k) = true) :
    (m.map (fun p => if p.1 == k then (p.1, p.2 + 1) else p)).lookup k =
      some ((m.lookup k).getD 0 + 1) := by
  induction m with
  | nil => simp at hany
  | cons hd tl ih =>
    rw [List.map_cons]
    by_cases h : hd.1 = k
    · have h' : (hd.1 == k) = true := by simp [h]
      have h'' : (k == hd.1) = true := by simp [h]
      rw [if_pos h', List.lookup, h'', List.lookup, h'']
      rfl
    · have h' : (hd.1 == k) = false := by simp [h]
      have h'' : (k == hd.1) = false := by
        simp only [beq_eq_false_iff_ne] at h' ⊢
        exact fun he => h' he.symm
      rw [List.any_cons] at hany
      have htl : tl.any (fun p => p.1 == k) = true := by
        rcases Bool.or_eq_true_iff.mp hany with hh | hh
        · rw [h'] at hh; cases hh
        · exact hh
      rw [if_neg (by simp [h']), List.lookup, h'', List.lookup, h'']
      exact ih htl

theorem lookup_append_put_gen {κ α : Type} [BEq κ] [LawfulBEq κ] (m : List (κ × α)) (k : κ) (v : α)
    (hnone : m.any (fun p => p.1 == k) = false) :
    (m ++ [(k, v)]).lookup k = some v := by
  induction m with
  | nil => simp [List.lookup]
  | cons hd tl ih =>
    rw [List.any_cons] at hnone
    rcases Bool.or_eq_false_iff.mp hnone with ⟨h1, h2⟩
    have h'' : (k == hd.1) = false := by
      simp only [beq_eq_false_iff_ne] at h1 ⊢
      exact fun he => h1 he.symm
    rw [List.cons_append, List.lookup, h'']
    exact ih h2

/-- `parent_stats[k] = parent_stats.get(k, 0) + 1`: the bumped key's count is
one more than before. -/
theorem lookup_bump_self {κ : Type} [BEq κ] [LawfulBEq κ] (m : List (κ × Nat)) (k : κ) :
    (bump m k).lookup k = some ((m.lookup k).getD 0 + 1) := by
  unfold bump
  split
  · rename_i hany
    exact lookup_bump_map m k hany
  · rename_i hany
    have hnone : m.any (fun p => p.1 == k) = false := by
      cases hc : m.any (fun p => p.1 == k)
      · rfl
      · exact absurd hc hany
    rw [lookup_of_no_key_gen hnone, lookup_append_put_gen m k 1 hnone]
    rfl

/-!
Projection of a record to its non-statistics fields
`(url, status_code, content_size, title, parent_url)` — the data the spec's
pause/resume test compares (plus parent and size, which also survive). -/

def projRec (r : UrlRecord) : String × Option Nat × Nat × String × Option String :=
  (r.url, r.status_code, r.content_size, r.title, r.parent_url)

/-- `update_parent_statistics` only changes the parent's `statistics` (and the
commit counter): every record's non-statistics projection is unchanged. -/
theorem update_parent_lookup_proj (env : Env) (st : CrawlerState) (p c u : String) :
    ((update_parent_statistics env st p c).1.url_data.lookup u).map projRec =
      (st.url_data.lookup u).map projRec := by
  unfold update_parent_statistics
  cases hp : st.url_data.lookup p with
  | none => cases st.url_data.lookup c <;> simp
  | some prec =>
    cases hc : st.url_data.lookup c with
    | none => simp
    | some crec =>
      simp only [dbOp]
      by_cases hu : u = p
      · subst hu
        rw [lookup_upsert_self, hp]
        rfl
      · rw [lookup_upsert_ne _ _ _ hu]

/-- `finishTask` never changes any record's non-statistics projection. -/
theorem finishTask_lookup_proj (env : Env) (st : CrawlerState) (t : CrawlTask) (u : String) :
    ((finishTask env st t).url_data.lookup u).map projRec =
      (st.url_data.lookup u).map projRec := by
  unfold finishTask
  cases t.parent_url with
  | none => rfl
  | some p =>
    dsimp only
    split
    · rename_i h
      exact update_parent_lookup_proj env st p t.url u
    · exact update_parent_lookup_proj env st p t.url u

/-- Equation for `update_parent_statistics` when both records exist. -/
theorem update_parent_statistics_eq (env : Env) (st : CrawlerState) {p c : String}
    {prec crec : UrlRecord} (hp : st.url_data.lookup p = some prec)
    (hc : st.url_data.lookup c = some crec) :
    update_parent_statistics env st p c =
      ({ st with
          url_data := upsert st.url_data p
            ({ prec with statistics := rollupStats env prec.statistics crec.status_code c }),
          db_calls := st.db_calls + 1 }, env.dbFail st.db_calls) := by
  unfold update_parent_statistics
  rw [hp, hc]
  rfl

/-- The Python truthiness test `status_code >= 400 if status_code else True`
holds exactly when the status is absent, zero, or at least 400. -/
theorem childIsError_iff (s : Option Nat) :
    childIsError s = true ↔ (s = none ∨ s = some 0 ∨ 400 ≤ s.getD 0) := by
  cases s with
  | none => simp [childIsError, pyTruthy]
  | some n =>
    by_cases h : n = 0
    · subst h
      simp [childIsError, pyTruthy]
    · simp [childIsError, pyTruthy, h]

/-- C5 (amended): fresh records carry all-zero statistics, and when a child
with a recorded parent completes, only the direct parent's record changes:
`total_urls_crawled` goes up by one, `total_errors` goes up by one exactly
when the child's status code is absent, zero (Python-falsy), or at least 400,
the child's host count and status-code count each go up by one, the parent's
non-statistics fields are untouched, and every other record — grandparents
included — is unchanged. -/
theorem c5_parent_statistics_rollup_amended (env : Env) (st : CrawlerState)
    (p c : String) (prec crec : UrlRecord)
    (hp : st.url_data.lookup p = some prec) (hc : st.url_data.lookup c = some crec) :
    (∀ (t : CrawlTask) (status csize : Nat) (title : String) (estatus : Option Nat),
      (successRecord t status csize title).statistics = zeroStats ∧
      (redirectRecord t status csize).statistics = zeroStats ∧
      (errorRecord t estatus).statistics = zeroStats) ∧
    (∃ r, (update_parent_statistics env st p c).1.url_data.lookup p = some r ∧
      r.statistics.total_urls_crawled = prec.statistics.total_urls_crawled + 1 ∧
      r.statistics.total_errors = prec.statistics.total_errors +
        (if crec.status_code = none ∨ crec.status_code = some 0 ∨ 400 ≤ crec.status_code.getD 0
          then 1 else 0) ∧
      (r.statistics.domain_stats.lookup (env.parse c).netloc).getD 0 =
        (prec.statistics.domain_stats.lookup (env.parse c).netloc).getD 0 + 1 ∧
      (r.statistics.status_code_stats.lookup (statKeyOf crec.status_code)).getD 0 =
        (prec.statistics.status_code_stats.lookup (statKeyOf crec.status_code)).getD 0 + 1 ∧
      projRec r = projRec prec) ∧
    (∀ u, u ≠ p → (update_parent_statistics env st p c).1.url_data.lookup u =
      st.url_data.lookup u) := by
  refine ⟨fun t status csize title estatus => ⟨rfl, rfl, rfl⟩, ?_, ?_⟩
  · rw [update_parent_statistics_eq env st hp hc]
    refine ⟨{ prec with statistics := rollupStats env prec.statistics crec.status_code c },
      lookup_upsert_self _ _ _, rfl, ?_, ?_, ?_, rfl⟩
    · show prec.statistics.total_errors + (if childIsError crec.status_code then 1 else 0) = _
      by_cases hE : childIsError crec.status_code = true
      · rw [hE, if_pos ((childIsError_iff crec.status_code).mp hE)]
        simp
      · have hE' : childIsError crec.status_code = false := by
          cases hb : childIsError crec.status_code
          · rfl
          · exact absurd hb hE
        rw [hE', if_neg (fun hcond => hE ((childIsError_iff crec.status_code).mpr hcond))]
        simp
    · show ((bump prec.statistics.domain_stats (env.parse c).netloc).lookup
          (env.parse c).netloc).getD 0 = _
      rw [lookup_bump_self]
      rfl
    · show ((bump prec.statistics.status_code_stats (statKeyOf crec.status_code)).lookup
          (statKeyOf crec.status_code)).getD 0 = _
      rw [lookup_bump_self]
      rfl
  · intro u hu
    rw [update_parent_statistics_eq env st hp hc]
    exact lookup_upsert_ne _ _ _ hu

/-- C5 counterexample: in an `envZero` run the child `p1` completes with the
present status code `0` (which is neither absent nor ≥ 400), yet the parent's
`total_errors` is incremented to 1 — Python truthiness treats `0` as "no
status". -/
theorem c5_counterexample :
    ((runSteps envZero 6 (startState "http://a.test/")).url_data.lookup "http://a.test/p1").map
        (fun r => r.status_code) = some (some 0) ∧
    ¬((some 0 : Option Nat) = none ∨ (400 : Nat) ≤ (some 0 : Option Nat).getD 0) ∧
    ((runSteps envZero 6 (startState "http://a.test/")).url_data.lookup "http://a.test/").map
        (fun r => r.statistics.total_errors) = some 1 := by
  decide

/-- Records used to instantiate the C5 witness. -/
def recP : UrlRecord :=
  { url := "P", status_code := some 200, content_size := 1, title := "p",
    parent_url := none, statistics := zeroStats }

def recC : UrlRecord :=
  { url := "C", status_code := some 404, content_size := 2, title := "c",
    parent_url := some "P", statistics := zeroStats }

def stPC : CrawlerState :=
  { queue := [], crawled_urls := ["P", "C"], url_data := [("P", recP), ("C", recC)],
    dequeue_log := [], fetch_log := [], db_calls := 0, aborted := false }

/-- Witness for C5 at a concrete parent/child pair (404 child). -/
theorem c5_parent_statistics_rollup_amended_witness :
    ∃ r, (update_parent_statistics envDup stPC "P" "C").1.url_data.lookup "P" = some r ∧
      r.statistics.total_urls_crawled = 1 ∧ r.statistics.total_errors = 1 := by
  obtain ⟨-, ⟨r, hr, h1, h2, -⟩, -⟩ :=
    c5_parent_statistics_rollup_amended envDup stPC "P" "C" recP recC (by decide) (by decide)
  refine ⟨r, hr, ?_, ?_⟩
  · rw [h1]
    decide
  · rw [h2]
    decide

/-!
Redirect handling (C3).
-/

theorem redirectBranch_queue (env : Env) (st : CrawlerState) (t : CrawlTask)
    (status csize : Nat) (target : String) :
    (redirectBranch env st t status csize target).queue =
      st.queue ++ [⟨target, t.depth, some t.url, t.redirect_count + 1⟩] := by
  unfold redirectBranch
  rw [finishTask_queue]

theorem redirectBranch_lookup_self (env : Env) (st : CrawlerState) (t : CrawlTask)
    (status csize : Nat) (target : String) :
    ((redirectBranch env st t status csize target).url_data.lookup t.url).map projRec =
      some (projRec (redirectRecord t status csize)) := by
  unfold redirectBranch
  dsimp only
  rw [finishTask_lookup_proj, lookup_upsert_self]
  rfl

/-- C3 (amended): on a response carrying a redirect location, the current
URL's record is finalized with the redirect's status code and the placeholder
title `'no title'`, and the follow-up task for the target — same depth,
`redirect_count + 1`, `parent_url` = the redirecting URL — is enqueued
UNCONDITIONALLY, even when the incremented count exceeds the configured
maximum; the limit is enforced only at dequeue time, where such an over-limit
task is dropped without a fetch and without touching the records, so the
over-limit target is never fetched. -/
theorem c3_redirect_handling_amended (env : Env) (st : CrawlerState) (t : CrawlTask)
    (rest : List CrawlTask) (status csize : Nat) (ctype : String) (links : List String)
    (title target : String)
    (hA : st.aborted = false) (hq : st.queue = t :: rest)
    (h1 : t.depth ≤ env.max_depth) (h2 : t.url ∉ st.crawled_urls)
    (h3 : t.redirect_count ≤ env.max_redirect_count)
    (hf : env.fetch t.url = .resp status csize (some target) ctype links title) :
    (step env st).queue = rest ++ [⟨target, t.depth, some t.url, t.redirect_count + 1⟩] ∧
    (∃ r, (step env st).url_data.lookup t.url = some r ∧ r.status_code = some status ∧
      r.title = "no title" ∧ r.parent_url = t.parent_url ∧ r.content_size = csize) ∧
    (∀ (st' : CrawlerState) (t' : CrawlTask) (rest' : List CrawlTask),
      st'.aborted = false → st'.queue = t' :: rest' →
      env.max_redirect_count < t'.redirect_count →
      (step env st').fetch_log = st'.fetch_log ∧ (step env st').url_data = st'.url_data) := by
  have h2' : st.crawled_urls.contains t.url = false := by
    cases hc : st.crawled_urls.contains t.url
    · rfl
    · exact absurd (by simpa using hc) h2
  have hstep := step_fetch hA hq h1 h2' h3
  have hfp : fetchAndProcess env
      { st with queue := rest, dequeue_log := st.dequeue_log ++ [t],
                crawled_urls := st.crawled_urls ++ [t.url],
                fetch_log := st.fetch_log ++ [t] } t =
      redirectBranch env
        { st with queue := rest, dequeue_log := st.dequeue_log ++ [t],
                  crawled_urls := st.crawled_urls ++ [t.url],
                  fetch_log := st.fetch_log ++ [t] } t status csize target := by
    unfold fetchAndProcess
    rw [hf]
  refine ⟨?_, ?_, ?_⟩
  · rw [hstep, hfp, redirectBranch_queue]
  · rw [hstep, hfp]
    have hl := redirectBranch_lookup_self env
      { st with queue := rest, dequeue_log := st.dequeue_log ++ [t],
                crawled_urls := st.crawled_urls ++ [t.url],
                fetch_log := st.fetch_log ++ [t] } t status csize target
    obtain ⟨r, hr, hpr⟩ := Option.map_eq_some'.mp hl
    have hpr' : r.url = t.url ∧ r.status_code = some status ∧ r.content_size = csize ∧
        r.title = "no title" ∧ r.parent_url = t.parent_url := by
      simpa [projRec, redirectRecord, Prod.ext_iff] using hpr
    exact ⟨r, hr, hpr'.2.1, hpr'.2.2.2.1, hpr'.2.2.2.2, hpr'.2.2.1⟩
  · intro st' t' rest' hA' hq' hrc
    rw [step_skip hA' hq' (Or.inr (Or.inr hrc))]
    exact ⟨rfl, rfl⟩

/-- C3 counterexample: with `max_redirect_count = 0` the seed (redirect
count 0) redirects; incrementing would exceed the maximum, yet the follow-up
task IS created and occupies a frontier slot. -/
theorem c3_counterexample :
    envRedirect.max_redirect_count = 0 ∧
    (runSteps envRedirect 1 (startState "http://a.test/")).queue =
      [⟨"http://a.test/p1", 0, some "http://a.test/", 1⟩] := by
  decide

/-- Witness for C3 at the concrete redirecting seed. -/
theorem c3_redirect_handling_amended_witness :
    (step envRedirect (startState "http://a.test/")).queue =
      [⟨"http://a.test/p1", 0, some "http://a.test/", 1⟩] := by
  have h := c3_redirect_handling_amended envRedirect (startState "http://a.test/")
    ⟨"http://a.test/", 0, none, 0⟩ [] 301 0 "text/html" [] "x" "http://a.test/p1"
    (by decide) (by decide) (by decide) (by decide) (by decide) (by decide)
  simpa using h.1

/-!
Enqueue behaviour of the success branch (C6, C7).
-/

/-- When the `save_to_database` commit succeeds, the success branch appends to
the frontier exactly the extracted links that pass the validity filter and are
not yet in the visited set — the frontier itself is never consulted. -/
theorem successBranch_queue_ok (env : Env) (st : CrawlerState) (t : CrawlTask)
    (status csize : Nat) (ctype : String) (links : List String) (title : String)
    (hdb : env.dbFail st.db_calls = false) :
    (successBranch env st t status csize ctype links title).queue =
      st.queue ++ ((((if containsTextHtml ctype then links else []).filter
        (fun l => is_valid_url env l)).filter
          (fun l => !st.crawled_urls.contains l)).map
        (fun l => ⟨l, t.depth + 1, some t.url, 0⟩)) := by
  unfold successBranch
  dsimp only
  simp only [dbOp]
  rw [hdb]
  simp only [Bool.false_eq_true, if_false]
  rw [finishTask_queue]

/-- C6 (amended): a discovered link is enqueued exactly when its URL is not in
the visited set — whether it is already queued in the frontier is NOT checked,
so a URL may be enqueued, and hence dequeued, more than once; the dequeue-time
visited-set guard still ensures the sequence of FETCHED tasks never repeats a
URL. -/
theorem c6_frontier_dedup_amended (env : Env) (st : CrawlerState) (t : CrawlTask)
    (rest : List CrawlTask) (status csize : Nat) (ctype : String) (links : List String)
    (title : String)
    (hA : st.aborted = false) (hq : st.queue = t :: rest)
    (h1 : t.depth ≤ env.max_depth) (h2 : t.url ∉ st.crawled_urls)
    (h3 : t.redirect_count ≤ env.max_redirect_count)
    (hf : env.fetch t.url = .resp status csize none ctype links title)
    (hdb : env.dbFail st.db_calls = false) :
    (step env st).queue = rest ++ ((((if containsTextHtml ctype then links else []).filter
        (fun l => is_valid_url env l)).filter
          (fun l => !(st.crawled_urls ++ [t.url]).contains l)).map
        (fun l => ⟨l, t.depth + 1, some t.url, 0⟩)) ∧
    ∀ (seed : String) (n : Nat),
      ((runSteps env n (startState seed)).fetch_log.map (fun tk => tk.url)).Nodup := by
  have h2' : st.crawled_urls.contains t.url = false := by
    cases hc : st.crawled_urls.contains t.url
    · rfl
    · exact absurd (by simpa using hc) h2
  constructor
  · rw [step_fetch hA hq h1 h2' h3]
    unfold fetchAndProcess
    rw [hf]
    exact successBranch_queue_ok env _ t status csize ctype links title hdb
  · intro seed n
    exact (runSteps_preserves_fetchLogInv env n (startState_fetchLogInv env seed)).1

/-- C6 counterexample: a page linking twice to the same URL enqueues it twice
(the second enqueue happens while the first copy is still in the frontier),
and the URL is then dequeued twice in the same run. -/
theorem c6_counterexample :
    (runSteps envDup 1 (startState "http://a.test/")).queue =
      [⟨"http://a.test/p1", 1, some "http://a.test/", 0⟩,
       ⟨"http://a.test/p1", 1, some "http://a.test/", 0⟩] ∧
    (((runSteps envDup 6 (startState "http://a.test/")).dequeue_log.map (fun t => t.url)).count
      "http://a.test/p1") = 2 := by
  decide

/-- Witness for C6 at the duplicate-link seed. -/
theorem c6_frontier_dedup_amended_witness :
    (step envDup (startState "http://a.test/")).queue =
      [⟨"http://a.test/p1", 1, some "http://a.test/", 0⟩,
       ⟨"http://a.test/p1", 1, some "http://a.test/", 0⟩] := by
  have h := c6_frontier_dedup_amended envDup (startState "http://a.test/")
    ⟨"http://a.test/", 0, none, 0⟩ [] 200 10 "text/html"
    ["http://a.test/p1", "http://a.test/p1"] "T"
    (by decide) (by decide) (by decide) (by decide) (by decide) (by decide) (by decide)
  rw [h.1]
  decide

/-- C7 (amended): every link-extracted URL that the success branch enqueues
has passed the validity filter (filtering happens before enqueuing); but a
redirect target is enqueued without the filter ever being consulted, so a
filter-rejected URL can occupy a frontier slot — and acquire a CrawlRecord —
when it is reached via a redirect. -/
theorem c7_filter_before_enqueue_amended (env : Env) (st : CrawlerState) (t : CrawlTask)
    (rest : List CrawlTask) (status csize : Nat) (ctype : String) (links : List String)
    (title : String)
    (hA : st.aborted = false) (hq : st.queue = t :: rest)
    (h1 : t.depth ≤ env.max_depth) (h2 : t.url ∉ st.crawled_urls)
    (h3 : t.redirect_count ≤ env.max_redirect_count)
    (hf : env.fetch t.url = .resp status csize none ctype links title)
    (hdb : env.dbFail st.db_calls = false) :
    (∀ t' ∈ (step env st).queue, t' ∈ rest ∨ is_valid_url env t'.url = true) ∧
    (∀ (st' : CrawlerState) (t' : CrawlTask) (rest' : List CrawlTask) (status' csize' : Nat)
        (ctype' : String) (links' : List String) (title' target : String),
      st'.aborted = false → st'.queue = t' :: rest' → t'.depth ≤ env.max_depth →
      t'.url ∉ st'.crawled_urls → t'.redirect_count ≤ env.max_redirect_count →
      env.fetch t'.url = .resp status' csize' (some target) ctype' links' title' →
      (step env st').queue = rest' ++ [⟨target, t'.depth, some t'.url, t'.redirect_count + 1⟩]) := by
  have h2' : st.crawled_urls.contains t.url = false := by
    cases hc : st.crawled_urls.contains t.url
    · rfl
    · exact absurd (by simpa using hc) h2
  constructor
  · intro t' ht'
    rw [step_fetch hA hq h1 h2' h3] at ht'
    unfold fetchAndProcess at ht'
    rw [hf] at ht'
    dsimp only at ht'
    rw [successBranch_queue_ok env
      { st with queue := rest, dequeue_log := st.dequeue_log ++ [t],
                crawled_urls := st.crawled_urls ++ [t.url], fetch_log := st.fetch_log ++ [t] }
      t status csize ctype links title hdb] at ht'
    rcases List.mem_append.mp ht' with h | h
    · exact Or.inl h
    · right
      obtain ⟨l, hl, rfl⟩ := List.mem_map.mp h
      have hl' := (List.mem_filter.mp hl).1
      exact (List.mem_filter.mp hl').2
  · intro st' t' rest' status' csize' ctype' links' title' target hA' hq' h1' h2' h3' hf'
    have h2'' : st'.crawled_urls.contains t'.url = false := by
      cases hc : st'.crawled_urls.contains t'.url
      · rfl
      · exact absurd (by simpa using hc) h2'
    rw [step_fetch hA' hq' h1' h2'' h3']
    unfold fetchAndProcess
    rw [hf']
    dsimp only
    rw [redirectBranch_queue]

/-- C7 counterexample: the blacklisted URL `img.jpg` is rejected by the
filter, yet a redirect enqueues it (frontier slot) and it is then fetched and
recorded. -/
theorem c7_counterexample :
    is_valid_url envJpg "http://a.test/img.jpg" = false ∧
    (runSteps envJpg 1 (startState "http://a.test/")).queue =
      [⟨"http://a.test/img.jpg", 0, some "http://a.test/", 1⟩] ∧
    ((runSteps envJpg 6 (startState "http://a.test/")).url_data.lookup
      "http://a.test/img.jpg").isSome = true := by
  decide

/-- Witness for C7: the link the duplicate-link seed enqueues passes the
filter. -/
theorem c7_filter_before_enqueue_amended_witness :
    (⟨"http://a.test/p1", 1, some "http://a.test/", 0⟩ : CrawlTask) ∈ ([] : List CrawlTask) ∨
      is_valid_url envDup "http://a.test/p1" = true := by
  exact (c7_filter_before_enqueue_amended envDup (startState "http://a.test/")
    ⟨"http://a.test/", 0, none, 0⟩ [] 200 10 "text/html"
    ["http://a.test/p1", "http://a.test/p1"] "T"
    (by decide) (by decide) (by decide) (by decide) (by decide) (by decide) (by decide)).1
    ⟨"http://a.test/p1", 1, some "http://a.test/", 0⟩ (by decide)

/-!
Exception containment and propagation (C9, and the terminal-failure part of
C4).
-/

theorem finishTask_none (env : Env) (st : CrawlerState) (t : CrawlTask)
    (h : t.parent_url = none) : finishTask env st t = st := by
  unfold finishTask
  rw [h]

/-- When its `save_to_database` commit succeeds, the `except` branch stores
the error record, counts the commit, and proceeds to the parent update. -/
theorem exceptBranch_ok (env : Env) (st : CrawlerState) (t : CrawlTask) (status : Option Nat)
    (hdb : env.dbFail st.db_calls = false) :
    exceptBranch env st t status =
      finishTask env
        { st with url_data := upsert st.url_data t.url (errorRecord t status),
                  db_calls := st.db_calls + 1 } t := by
  unfold exceptBranch
  dsimp only
  simp only [dbOp]
  rw [hdb]
  simp only [Bool.false_eq_true, if_false]

/-- When its `save_to_database` commit succeeds, the success branch stores the
record, counts the commit, enqueues the new links, and proceeds to the parent
update. -/
theorem successBranch_ok (env : Env) (st : CrawlerState) (t : CrawlTask)
    (status csize : Nat) (ctype : String) (links : List String) (title : String)
    (hdb : env.dbFail st.db_calls = false) :
    successBranch env st t status csize ctype links title =
      finishTask env
        { st with
          queue := st.queue ++ ((((if containsTextHtml ctype then links else []).filter
            (fun l => is_valid_url env l)).filter
              (fun l => !st.crawled_urls.contains l)).map
            (fun l => ⟨l, t.depth + 1, some t.url, 0⟩)),
          url_data := upsert st.url_data t.url (successRecord t status csize title),
          db_calls := st.db_calls + 1 } t := by
  unfold successBranch
  dsimp only
  simp only [dbOp]
  rw [hdb]
  simp only [Bool.false_eq_true, if_false]

/-- A raise inside `update_parent_statistics` (here: the database commit)
escapes `finishTask` and marks the run aborted. -/
theorem finishTask_aborts (env : Env) (st : CrawlerState) (t : CrawlTask) (p : String)
    (prec crec : UrlRecord) (hparent : t.parent_url = some p)
    (hp : st.url_data.lookup p = some prec) (hc : st.url_data.lookup t.url = some crec)
    (hdb : env.dbFail st.db_calls = true) :
    (finishTask env st t).aborted = true := by
  unfold finishTask
  rw [hparent]
  dsimp only
  rw [update_parent_statistics_eq env st hp hc]
  dsimp only
  rw [hdb]
  simp

/-- A dequeued orphan task (no `parent_url`) whose fetch raises and whose
error-branch save succeeds: the loop stores an `'Error'` record, does not
re-queue the task, and carries on un-aborted. -/
theorem step_raised_orphan (env : Env) (st : CrawlerState) (t : CrawlTask)
    (rest : List CrawlTask) (s : Option Nat)
    (hA : st.aborted = false) (hq : st.queue = t :: rest)
    (h1 : t.depth ≤ env.max_depth) (h2 : t.url ∉ st.crawled_urls)
    (h3 : t.redirect_count ≤ env.max_redirect_count)
    (hf : env.fetch t.url = .raised s) (hdb : env.dbFail st.db_calls = false)
    (hparent : t.parent_url = none) :
    (step env st).aborted = false ∧ (step env st).queue = rest ∧
    ∃ r, (step env st).url_data.lookup t.url = some r ∧ r.title = "Error" ∧
      r.status_code = s := by
  have h2' : st.crawled_urls.contains t.url = false := by
    cases hc : st.crawled_urls.contains t.url
    · rfl
    · exact absurd (by simpa using hc) h2
  rw [step_fetch hA hq h1 h2' h3]
  unfold fetchAndProcess
  rw [hf]
  dsimp only
  rw [exceptBranch_ok env
    { st with queue := rest, dequeue_log := st.dequeue_log ++ [t],
              crawled_urls := st.crawled_urls ++ [t.url], fetch_log := st.fetch_log ++ [t] }
    t s hdb, finishTask_none env _ t hparent]
  refine ⟨hA, rfl, ?_⟩
  exact ⟨errorRecord t s, lookup_upsert_self _ _ _, rfl, rfl⟩

/-- C9 (amended): a fetch failure inside a task's processing is contained by
the per-task `try/except` (the loop records the outcome and proceeds to the
next frontier item), but the parent-statistics rollup runs OUTSIDE that
`try/except` and re-raises database failures, so a persistence failure in the
rollup propagates out of the loop and halts the whole run. -/
theorem c9_failure_containment_amended (env : Env) (st : CrawlerState) (t : CrawlTask)
    (rest : List CrawlTask)
    (hA : st.aborted = false) (hq : st.queue = t :: rest)
    (h1 : t.depth ≤ env.max_depth) (h2 : t.url ∉ st.crawled_urls)
    (h3 : t.redirect_count ≤ env.max_redirect_count) :
    (∀ s : Option Nat, env.fetch t.url = .raised s → env.dbFail st.db_calls = false →
      t.parent_url = none →
      (step env st).aborted = false ∧ (step env st).queue = rest ∧
      ∃ r, (step env st).url_data.lookup t.url = some r ∧ r.title = "Error") ∧
    (∀ (status csize : Nat) (ctype : String) (links : List String) (title : String)
        (p : String) (prec : UrlRecord),
      env.fetch t.url = .resp status csize none ctype links title →
      env.dbFail st.db_calls = false → t.parent_url = some p → p ≠ t.url →
      st.url_data.lookup p = some prec → env.dbFail (st.db_calls + 1) = true →
      (step env st).aborted = true) := by
  have h2' : st.crawled_urls.contains t.url = false := by
    cases hc : st.crawled_urls.contains t.url
    · rfl
    · exact absurd (by simpa using hc) h2
  constructor
  · intro s hf hdb hparent
    obtain ⟨ha, hqq, r, hr, ht, -⟩ :=
      step_raised_orphan env st t rest s hA hq h1 h2 h3 hf hdb hparent
    exact ⟨ha, hqq, r, hr, ht⟩
  · intro status csize ctype links title p prec hf hdbA hparent hpt hp hdbB
    rw [step_fetch hA hq h1 h2' h3]
    unfold fetchAndProcess
    rw [hf]
    dsimp only
    rw [successBranch_ok env
      { st with queue := rest, dequeue_log := st.dequeue_log ++ [t],
                crawled_urls := st.crawled_urls ++ [t.url], fetch_log := st.fetch_log ++ [t] }
      t status csize ctype links title hdbA]
    refine finishTask_aborts env _ t p prec (successRecord t status csize title) hparent ?_ ?_ hdbB
    · rw [lookup_upsert_ne _ _ _ hpt]
      exact hp
    · exact lookup_upsert_self _ _ _

/-- C9 counterexample: in the `envDbFail` run the child's statistics commit
raises; the exception escapes the loop (`aborted`), stranding the queued task
`p2`, which never gets a record — a single task's persistence failure halted
the whole run. -/
theorem c9_counterexample :
    (runSteps envDbFail 10 (startState "http://a.test/")).aborted = true ∧
    (runSteps envDbFail 10 (startState "http://a.test/")).queue ≠ [] ∧
    (runSteps envDbFail 10 (startState "http://a.test/")).url_data.lookup
      "http://a.test/p2" = none := by
  decide

/-- Witness for C9: the contained orphan failure (seed of `envDomains`, whose
fetch raises) and the propagated rollup failure (second task of `envDbFail`). -/
theorem c9_failure_containment_amended_witness :
    (step envDomains (startState "https://x.test/")).aborted = false ∧
    (step envDbFail (runSteps envDbFail 1 (startState "http://a.test/"))).aborted = true := by
  constructor
  · exact ((c9_failure_containment_amended envDomains (startState "https://x.test/")
      ⟨"https://x.test/", 0, none, 0⟩ [] (by decide) (by decide) (by decide) (by decide)
      (by decide)).1 none (by decide) (by decide) (by decide)).1
  · exact (c9_failure_containment_amended envDbFail
      (runSteps envDbFail 1 (startState "http://a.test/"))
      ⟨"http://a.test/p1", 1, some "http://a.test/", 0⟩ [] (by decide) (by decide) (by decide)
      (by decide) (by decide)).2 200 5 "text/html" ["http://a.test/p2"] "T1"
      "http://a.test/"
      { url := "http://a.test/", status_code := some 200, content_size := 10, title := "T",
        parent_url := none, statistics := zeroStats }
      (by decide) (by decide) (by decide) (by decide) (by decide) (by decide)

/-!
Retry policy (C4).
-/

theorem tenacityLoop_attempts_le {α : Type} (oracle : Nat → Except ReqError α) :
    ∀ (r k : Nat) (waits : List Nat), (tenacityLoop oracle r k waits).1 ≤ k + r := by
  intro r
  induction r with
  | zero =>
    intro k waits
    cases ho : oracle k with
    | ok a =>
      unfold tenacityLoop
      rw [ho]
      simp
    | error e =>
      unfold tenacityLoop
      rw [ho]
      dsimp only
      split <;> simp
  | succ r ih =>
    intro k waits
    cases ho : oracle k with
    | ok a =>
      unfold tenacityLoop
      rw [ho]
      simp
    | error e =>
      unfold tenacityLoop
      rw [ho]
      dsimp only
      split
      · have := ih (k + 1) (waits ++ [wait_exponential 1 4 10 k])
        omega
      · simp

theorem wait_exponential_bounds (k : Nat) :
    4 ≤ wait_exponential 1 4 10 k ∧ wait_exponential 1 4 10 k ≤ 10 := by
  unfold wait_exponential
  constructor
  · have h1 : max 0 4 = 4 := by norm_num
    rw [h1]
    exact Nat.le_max_left _ _
  · have h1 : max 0 4 = 4 := by norm_num
    rw [h1]
    exact Nat.max_le.mpr ⟨by norm_num, Nat.min_le_right _ _⟩

theorem tenacityLoop_waits_bounded {α : Type} (oracle : Nat → Except ReqError α) :
    ∀ (r k : Nat) (waits : List Nat), (∀ w ∈ waits, 4 ≤ w ∧ w ≤ 10) →
    ∀ w ∈ (tenacityLoop oracle r k waits).2.1, 4 ≤ w ∧ w ≤ 10 := by
  intro r
  induction r with
  | zero =>
    intro k waits hw
    cases ho : oracle k with
    | ok a =>
      unfold tenacityLoop
      rw [ho]
      exact hw
    | error e =>
      unfold tenacityLoop
      rw [ho]
      dsimp only
      split
      · exact hw
      · exact hw
  | succ r ih =>
    intro k waits hw
    cases ho : oracle k with
    | ok a =>
      unfold tenacityLoop
      rw [ho]
      exact hw
    | error e =>
      unfold tenacityLoop
      rw [ho]
      dsimp only
      split
      · refine ih (k + 1) (waits ++ [wait_exponential 1 4 10 k]) ?_
        intro w hwm
        rcases List.mem_append.mp hwm with h | h
        · exact hw w h
        · simp at h
          subst h
          exact wait_exponential_bounds k
      · exact hw

/-- C4 (amended): the retry predicate
`retry_if_exception_type((ConnectionError, Timeout, RequestException))`
includes the base class `RequestException`, so EVERY requests-level failure —
malformed-URL errors such as `MissingSchema` included — is retried; only
exceptions outside the `RequestException` hierarchy escape unretried. Retries
stop after 3 total attempts; each backoff wait is
`max(4, min(1 * 2 ** attempt, 10))` — the base term doubles per attempt, with
floor 4 and cap 10; when all attempts fail the last failure surfaces as a
terminal fetch failure, which the loop records as an `'Error'` record without
re-queueing the task. -/
theorem c4_retry_policy_amended {α : Type} (oracle : Nat → Except ReqError α) :
    (isRetriedException .connectionError = true ∧ isRetriedException .timeout = true ∧
      isRetriedException .missingSchema = true ∧
      isRetriedException .otherRequestException = true ∧
      isRetriedException .nonRequestError = false) ∧
    (crawl_url_with_retry oracle).1 ≤ 3 ∧
    (oracle 1 = .error .nonRequestError →
      crawl_url_with_retry oracle = (1, [], .error .nonRequestError)) ∧
    (∀ k, wait_exponential 1 4 10 k = max 4 (min (2 ^ k) 10) ∧
      wait_exponential 1 4 10 (k + 1) = max 4 (min (2 * 2 ^ k) 10) ∧
      4 ≤ wait_exponential 1 4 10 k ∧ wait_exponential 1 4 10 k ≤ 10) ∧
    (∀ w ∈ (crawl_url_with_retry oracle).2.1, 4 ≤ w ∧ w ≤ 10) ∧
    (∀ e1 e2 e3 : ReqError, isRetriedException e1 = true → isRetriedException e2 = true →
      isRetriedException e3 = true → oracle 1 = .error e1 → oracle 2 = .error e2 →
      oracle 3 = .error e3 →
      crawl_url_with_retry oracle =
        (3, [wait_exponential 1 4 10 1, wait_exponential 1 4 10 2], .error e3)) ∧
    (∀ (env : Env) (st : CrawlerState) (t : CrawlTask) (rest : List CrawlTask)
        (s : Option Nat),
      st.aborted = false → st.queue = t :: rest → t.depth ≤ env.max_depth →
      t.url ∉ st.crawled_urls → t.redirect_count ≤ env.max_redirect_count →
      env.fetch t.url = .raised s → env.dbFail st.db_calls = false → t.parent_url = none →
      (step env st).queue = rest ∧
      ∃ r, (step env st).url_data.lookup t.url = some r ∧ r.title = "Error" ∧
        r.status_code = s) := by
  refine ⟨⟨rfl, rfl, rfl, rfl, rfl⟩, ?_, ?_, ?_, ?_, ?_, ?_⟩
  · have := tenacityLoop_attempts_le oracle 2 1 []
    simpa [crawl_url_with_retry] using this
  · intro h
    unfold crawl_url_with_retry tenacityLoop
    rw [h]
    rfl
  · intro k
    refine ⟨?_, ?_, wait_exponential_bounds k⟩
    · unfold wait_exponential
      norm_num
    · unfold wait_exponential
      rw [pow_succ]
      simp [Nat.zero_max, Nat.one_mul, Nat.mul_comm]
  · exact tenacityLoop_waits_bounded oracle 2 1 [] (by simp)
  · intro e1 e2 e3 hr1 hr2 hr3 h1 h2 h3
    unfold crawl_url_with_retry
    simp [tenacityLoop, h1, h2, h3, hr1, hr2, hr3]
  · intro env st t rest s hA hq h1 h2 h3 hf hdb hparent
    obtain ⟨-, hqq, r, hr, ht, hs⟩ :=
      step_raised_orphan env st t rest s hA hq h1 h2 h3 hf hdb hparent
    exact ⟨hqq, r, hr, ht, hs⟩

/-- C4 counterexample: a malformed URL raises `MissingSchema`, which IS a
`RequestException`, so the policy retries it — all 3 attempts are consumed
(with backoff waits 4 and 4) instead of failing immediately without retry. -/
theorem c4_counterexample :
    crawl_url_with_retry (α := Unit) (fun _ => .error .missingSchema) =
      (3, [4, 4], .error .missingSchema) ∧
    isRetriedException .missingSchema = true := by
  exact ⟨rfl, rfl⟩

/-- Witness for C4 at two concrete oracles. -/
theorem c4_retry_policy_amended_witness :
    (crawl_url_with_retry (α := Unit) (fun _ => .error .connectionError)).1 ≤ 3 ∧
    crawl_url_with_retry (α := Unit) (fun _ => .error .nonRequestError) =
      (1, [], .error .nonRequestError) := by
  refine ⟨(c4_retry_policy_amended (α := Unit) (fun _ => .error .connectionError)).2.1, ?_⟩
  exact (c4_retry_policy_amended (α := Unit) (fun _ => .error .nonRequestError)).2.2.1 rfl

/-!
State persistence (C2): the JSON round trip stringifies `status_code_stats`
keys, so it is NOT the identity on states; everything outside `statistics` is
restored exactly, and the continuation behaves identically with respect to
the frontier, the visited set and every record's non-statistics fields.
The proof is a bisimulation argument: `projEq` (equality of everything except
the statistics dictionaries) is preserved by `step`, and `save_load` is
`projEq`-equal to the identity.
-/

/-- `url_data` with every record cut down to its non-statistics fields. -/
def projData (m : List (String × UrlRecord)) :
    List (String × (String × Option Nat × Nat × String × Option String)) :=
  m.map (fun p => (p.1, projRec p.2))

/-- Equality of two states everywhere except inside the records'
`statistics`. -/
def projEq (st st' : CrawlerState) : Prop :=
  st.queue = st'.queue ∧ st.crawled_urls = st'.crawled_urls ∧
  projData st.url_data = projData st'.url_data ∧
  st.dequeue_log = st'.dequeue_log ∧ st.fetch_log = st'.fetch_log ∧
  st.db_calls = st'.db_calls ∧ st.aborted = st'.aborted

theorem projEq_refl (st : CrawlerState) : projEq st st :=
  ⟨rfl, rfl, rfl, rfl, rfl, rfl, rfl⟩

theorem projData_keys {m m' : List (String × UrlRecord)}
    (h : projData m = projData m') : m.map Prod.fst = m'.map Prod.fst := by
  have h1 : (projData m).map Prod.fst = m.map Prod.fst := by
    unfold projData
    rw [List.map_map]
    rfl
  have h2 : (projData m').map Prod.fst = m'.map Prod.fst := by
    unfold projData
    rw [List.map_map]
    rfl
  rw [← h1, ← h2, h]

theorem any_fst_eq (m : List (String × UrlRecord)) (k : String) :
    m.any (fun p => p.1 == k) = (m.map Prod.fst).any (fun x => x == k) := by
  induction m with
  | nil => rfl
  | cons hd tl ih => simp [List.any_cons, ih]

theorem any_key_congr {m m' : List (String × UrlRecord)}
    (h : projData m = projData m') (k : String) :
    m.any (fun p => p.1 == k) = m'.any (fun p => p.1 == k) := by
  rw [any_fst_eq, any_fst_eq, projData_keys h]

theorem lookup_proj_congr {m m' : List (String × UrlRecord)}
    (h : projData m = projData m') (k : String) :
    (m.lookup k).map projRec = (m'.lookup k).map projRec := by
  induction m generalizing m' with
  | nil =>
    cases m' with
    | nil => rfl
    | cons hd tl => exact absurd h (by simp [projData])
  | cons hd tl ih =>
    cases m' with
    | nil => exact absurd h (by simp [projData])
    | cons hd' tl' =>
      unfold projData at h
      rw [List.map_cons, List.map_cons] at h
      obtain ⟨hhd, htl⟩ := List.cons_eq_cons.mp h
      obtain ⟨hk, hr⟩ := (Prod.mk.injEq _ _ _ _).mp hhd
      by_cases hu : k = hd.1
      · have hb : (k == hd.1) = true := by simp [hu]
        have hb' : (k == hd'.1) = true := by rw [← hk]; simp [hu]
        rw [List.lookup, hb, List.lookup, hb']
        simpa using hr
      · have hb : (k == hd.1) = false := by simp [hu]
        have hb' : (k == hd'.1) = false := by rw [← hk]; simp [hu]
        rw [List.lookup, hb, List.lookup, hb']
        exact ih htl

theorem map_put_proj_congr {m m' : List (String × UrlRecord)}
    (h : projData m = projData m') {v v' : UrlRecord} (hv : projRec v = projRec v')
    (k : String) :
    projData (m.map (fun p => if p.1 == k then (k, v) else p)) =
      projData (m'.map (fun p => if p.1 == k then (k, v') else p)) := by
  induction m generalizing m' with
  | nil =>
    cases m' with
    | nil => rfl
    | cons hd tl => exact absurd h (by simp [projData])
  | cons hd tl ih =>
    cases m' with
    | nil => exact absurd h (by simp [projData])
    | cons hd' tl' =>
      unfold projData at h
      rw [List.map_cons, List.map_cons] at h
      obtain ⟨hhd, htl⟩ := List.cons_eq_cons.mp h
      obtain ⟨hk, hr⟩ := (Prod.mk.injEq _ _ _ _).mp hhd
      have htl' := ih htl
      unfold projData at htl' ⊢
      by_cases hb : hd.1 = k
      · have hb2 : hd'.1 = k := by rw [← hk]; exact hb
        simp only [List.map_cons, List.map_cons, hb, hb2, beq_self_eq_true, if_true]
        rw [htl']
        simp [hv]
      · have hb2 : ¬ hd'.1 = k := by rw [← hk]; exact hb
        have hb1' : (hd.1 == k) = false := by simp [hb]
        have hb2' : (hd'.1 == k) = false := by simp [hb2]
        simp only [List.map_cons, List.map_cons, hb1', hb2', Bool.false_eq_true, if_false]
        rw [htl']
        simp [hk, hr]

theorem upsert_proj_congr {m m' : List (String × UrlRecord)}
    (h : projData m = projData m') {v v' : UrlRecord} (hv : projRec v = projRec v')
    (k : String) : projData (upsert m k v) = projData (upsert m' k v') := by
  unfold upsert
  rw [any_key_congr h k]
  split
  · exact map_put_proj_congr h hv k
  · unfold projData at h ⊢
    rw [List.map_append, List.map_append, h]
    simp [hv]

theorem update_parent_proj (env : Env) {st st' : CrawlerState} (h : projEq st st')
    (p c : String) :
    projEq (update_parent_statistics env st p c).1 (update_parent_statistics env st' p c).1 ∧
    (update_parent_statistics env st p c).2 = (update_parent_statistics env st' p c).2 := by
  obtain ⟨hQ, hC, hU, hD, hF, hB, hA⟩ := h
  have hp := lookup_proj_congr hU p
  have hc := lookup_proj_congr hU c
  unfold update_parent_statistics
  cases hlp : st.url_data.lookup p with
  | none =>
    have hlp' : st'.url_data.lookup p = none := by
      rw [hlp] at hp
      cases hx : st'.url_data.lookup p with
      | none => rfl
      | some r => rw [hx] at hp; simp at hp
    rw [hlp']
    cases st.url_data.lookup c <;> cases st'.url_data.lookup c <;>
      exact ⟨⟨hQ, hC, hU, hD, hF, hB, hA⟩, rfl⟩
  | some prec =>
    obtain ⟨prec', hlp', hpr⟩ :
        ∃ r', st'.url_data.lookup p = some r' ∧ projRec prec = projRec r' := by
      rw [hlp] at hp
      cases hx : st'.url_data.lookup p with
      | none => rw [hx] at hp; simp at hp
      | some r =>
        rw [hx] at hp
        simp at hp
        exact ⟨r, rfl, hp⟩
    rw [hlp']
    cases hlc : st.url_data.lookup c with
    | none =>
      have hlc' : st'.url_data.lookup c = none := by
        rw [hlc] at hc
        cases hx : st'.url_data.lookup c with
        | none => rfl
        | some r => rw [hx] at hc; simp at hc
      rw [hlc']
      exact ⟨⟨hQ, hC, hU, hD, hF, hB, hA⟩, rfl⟩
    | some crec =>
      obtain ⟨crec', hlc', hcr⟩ :
          ∃ r', st'.url_data.lookup c = some r' ∧ projRec crec = projRec r' := by
        rw [hlc] at hc
        cases hx : st'.url_data.lookup c with
        | none => rw [hx] at hc; simp at hc
        | some r =>
          rw [hx] at hc
          simp at hc
          exact ⟨r, rfl, hc⟩
      rw [hlc']
      dsimp only [dbOp]
      refine ⟨⟨hQ, hC, ?_, hD, hF, by simp [hB], hA⟩, by simp [hB]⟩
      refine upsert_proj_congr hU ?_ p
      simpa [projRec] using hpr

theorem finishTask_proj (env : Env) {st st' : CrawlerState} (h : projEq st st')
    (t : CrawlTask) : projEq (finishTask env st t) (finishTask env st' t) := by
  unfold finishTask
  cases t.parent_url with
  | none => exact h
  | some p =>
    dsimp only
    obtain ⟨h1, h2⟩ := update_parent_proj env h p t.url
    rw [h2]
    obtain ⟨g1, g2, g3, g4, g5, g6, g7⟩ := h1
    split
    · exact ⟨g1, g2, g3, g4, g5, g6, rfl⟩
    · exact ⟨g1, g2, g3, g4, g5, g6, g7⟩

theorem exceptBranch_proj (env : Env) {st st' : CrawlerState} (h : projEq st st')
    (t : CrawlTask) (status : Option Nat) :
    projEq (exceptBranch env st t status) (exceptBranch env st' t status) := by
  obtain ⟨hQ, hC, hU, hD, hF, hB, hA⟩ := h
  unfold exceptBranch
  dsimp only [dbOp]
  rw [hB]
  split
  · exact ⟨hQ, hC, upsert_proj_congr hU rfl t.url, hD, hF, by simp [hB], rfl⟩
  · refine finishTask_proj env ?_ t
    exact ⟨hQ, hC, upsert_proj_congr hU rfl t.url, hD, hF, by simp [hB], hA⟩

theorem successBranch_proj (env : Env) {st st' : CrawlerState} (h : projEq st st')
    (t : CrawlTask) (status csize : Nat) (ctype : String) (links : List String)
    (title : String) :
    projEq (successBranch env st t status csize ctype links title)
      (successBranch env st' t status csize ctype links title) := by
  obtain ⟨hQ, hC, hU, hD, hF, hB, hA⟩ := h
  unfold successBranch
  dsimp only [dbOp]
  rw [hB]
  split
  · refine exceptBranch_proj env ?_ t none
    exact ⟨hQ, hC, upsert_proj_congr hU rfl t.url, hD, hF, by simp [hB], hA⟩
  · refine finishTask_proj env ?_ t
    exact ⟨by rw [hQ, hC], hC, upsert_proj_congr hU rfl t.url, hD, hF, by simp [hB], hA⟩

theorem fetchAndProcess_proj (env : Env) {st st' : CrawlerState} (h : projEq st st')
    (t : CrawlTask) : projEq (fetchAndProcess env st t) (fetchAndProcess env st' t) := by
  unfold fetchAndProcess
  cases env.fetch t.url with
  | resp status csize location ctype links title =>
    cases location with
    | none => exact successBranch_proj env h t status csize ctype links title
    | some target =>
      unfold redirectBranch
      obtain ⟨hQ, hC, hU, hD, hF, hB, hA⟩ := h
      refine finishTask_proj env ?_ t
      exact ⟨by rw [hQ], hC, upsert_proj_congr hU rfl t.url, hD, hF, hB, hA⟩
  | raised status => exact exceptBranch_proj env h t status

theorem step_proj (env : Env) {st st' : CrawlerState} (h : projEq st st') :
    projEq (step env st) (step env st') := by
  obtain ⟨hQ, hC, hU, hD, hF, hB, hA⟩ := h
  unfold step
  rw [hA, hQ, hC]
  split
  · exact ⟨hQ, hC, hU, hD, hF, hB, hA⟩
  · cases hq : st'.queue with
    | nil => exact ⟨hQ, hC, hU, hD, hF, hB, hA⟩
    | cons t rest =>
      dsimp only
      split
      · refine ⟨?_, ?_, ?_, ?_, ?_, ?_, ?_⟩ <;> simp [hQ, hC, hU, hD, hF, hB, hA]
      · split
        · refine ⟨?_, ?_, ?_, ?_, ?_, ?_, ?_⟩ <;> simp [hQ, hC, hU, hD, hF, hB, hA]
        · refine fetchAndProcess_proj env ?_ t
          refine ⟨?_, ?_, ?_, ?_, ?_, ?_, ?_⟩ <;> simp [hQ, hC, hU, hD, hF, hB, hA]

theorem runSteps_proj (env : Env) (n : Nat) {st st' : CrawlerState} (h : projEq st st') :
    projEq (runSteps env n st) (runSteps env n st') := by
  induction n generalizing st st' with
  | zero => exact h
  | succ n ih =>
    unfold runSteps
    rw [h.2.2.2.2.2.2, h.1]
    split
    · exact h
    · exact ih (step_proj env h)

theorem save_load_projEq (st : CrawlerState) : projEq (save_load st) st := by
  refine ⟨rfl, rfl, ?_, rfl, rfl, rfl, rfl⟩
  unfold save_load projData
  dsimp only
  rw [List.map_map]
  rfl

theorem runSteps_stopped (env : Env) (m : Nat) {st : CrawlerState}
    (h : (st.aborted || st.queue.isEmpty) = true) : runSteps env m st = st := by
  cases m with
  | zero => rfl
  | succ m =>
    unfold runSteps
    rw [h]
    simp

theorem runSteps_succ (env : Env) (n : Nat) (st : CrawlerState) :
    runSteps env (n + 1) st =
      if st.aborted || st.queue.isEmpty then st else runSteps env n (step env st) := rfl

theorem runSteps_add (env : Env) (n m : Nat) (st : CrawlerState) :
    runSteps env (n + m) st = runSteps env m (runSteps env n st) := by
  induction n generalizing st with
  | zero =>
    rw [Nat.zero_add]
    rfl
  | succ n ih =>
    by_cases hstop : (st.aborted || st.queue.isEmpty) = true
    · rw [runSteps_stopped env (n + 1 + m) hstop, runSteps_stopped env (n + 1) hstop,
        runSteps_stopped env m hstop]
    · have hstop' : (st.aborted || st.queue.isEmpty) = false := by
        cases hc : (st.aborted || st.queue.isEmpty)
        · rfl
        · exact absurd hc hstop
      rw [Nat.succ_add, runSteps_succ env (n + m) st, runSteps_succ env n st, hstop']
      simp only [Bool.false_eq_true, if_false]
      exact ih (step env st)

/-- C2 (amended): `save_state` followed by `load_state` restores the frontier
sequence and the visited set exactly, restores every record's `url`,
`status_code`, `content_size`, `title` and `parent_url` exactly, but
stringifies the keys of every `status_code_stats` dictionary (JSON object
keys are strings: an `int` key becomes its decimal string, a `None` key
becomes `"null"`), so the record mapping is restored only up to that key
change; consequently pausing after `n` steps, persisting, restoring and
running `m` further steps yields the same frontier, visited set and records —
compared by (url, status code, content size, title, parent) — as running
`n + m` steps uninterrupted. -/
theorem c2_save_load_round_trip_amended (env : Env) (st : CrawlerState) (n m : Nat) :
    (save_load st).queue = st.queue ∧
    (save_load st).crawled_urls = st.crawled_urls ∧
    projData (save_load st).url_data = projData st.url_data ∧
    (∀ p ∈ (save_load st).url_data, ∀ q ∈ p.2.statistics.status_code_stats,
      ∃ s, q.1 = StatKey.str s) ∧
    ((runSteps env m (save_load (runSteps env n st))).queue =
      (runSteps env (n + m) st).queue ∧
     (runSteps env m (save_load (runSteps env n st))).crawled_urls =
      (runSteps env (n + m) st).crawled_urls ∧
     projData (runSteps env m (save_load (runSteps env n st))).url_data =
      projData (runSteps env (n + m) st).url_data) := by
  have hsl := save_load_projEq st
  refine ⟨hsl.1, hsl.2.1, hsl.2.2.1, ?_, ?_⟩
  · intro p hp q hq
    unfold save_load at hp
    obtain ⟨p0, hp0, rfl⟩ := List.mem_map.mp hp
    dsimp only at hq
    unfold saveLoadRecord at hq
    dsimp only at hq
    obtain ⟨q0, hq0, rfl⟩ := List.mem_map.mp hq
    exact ⟨jsonKeyStr q0.1, rfl⟩
  · have h := runSteps_proj env m (save_load_projEq (runSteps env n st))
    rw [runSteps_add env n m st]
    exact ⟨h.1, h.2.1, h.2.2.1⟩

/-- C2 counterexample: after the two-page `envDup` run the seed's record
holds `status_code_stats = {200: 1}` with the integer key `200`; the JSON
round trip turns that key into the string `"200"`, so loading does not
restore the record mapping exactly. -/
theorem c2_counterexample :
    save_load (runSteps envDup 6 (startState "http://a.test/")) ≠
      runSteps envDup 6 (startState "http://a.test/") ∧
    ((save_load (runSteps envDup 6 (startState "http://a.test/"))).url_data.lookup
        "http://a.test/").map (fun r => r.statistics.status_code_stats) =
      some [(StatKey.str "200", 1)] ∧
    ((runSteps envDup 6 (startState "http://a.test/")).url_data.lookup
        "http://a.test/").map (fun r => r.statistics.status_code_stats) =
      some [(StatKey.int 200, 1)] := by
  decide

/-- Witness for C2 at the concrete `envDup` run, pausing after 1 step. -/
theorem c2_save_load_round_trip_amended_witness :
    (runSteps envDup 5 (save_load (runSteps envDup 1 (startState "http://a.test/")))).crawled_urls =
      (runSteps envDup (1 + 5) (startState "http://a.test/")).crawled_urls := by
  exact (c2_save_load_round_trip_amended envDup (startState "http://a.test/") 1 5).2.2.2.2.2.1
